import Mathlib

/-!
Verification development for a small user-directory CRUD service.

The repository has two variants of the service:
* an in-memory/file variant (`src/myapp/main.py`), embedded below in the
  `Myapp` namespace, whose store is a list of optional JSON dictionaries
  (`None` marks a tombstoned slot) mirrored to a JSON-lines log file; and
* a DB-backed variant (`src/main.py`), embedded in the `Db` namespace, whose
  table is the system of record and whose in-memory slice and log file are
  refreshed from the table after mutations.

Python dictionaries holding JSON data are embedded as insertion-ordered
association lists over a type `JPrim` of primitive JSON values (the fragment
of JSON the application reads and writes: strings, integers, booleans and
null; floats and nested containers do not occur in any record the
application itself produces and are modelled as unparseable).
-/

/-- Primitive JSON values as stored in the Python dictionaries. -/
inductive JPrim where
  | pnull
  | pbool (b : Bool)
  | pint (i : Int)
  | pstr (s : String)
deriving Repr, DecidableEq

/-- A user record: a Python dict, i.e. an insertion-ordered association list. -/
abbrev Rec := List (String × JPrim)

/-- The in-memory store of the in-memory/file variant:
an indexable list with None for tombstoned slots. -/
abbrev Store := List (Option Rec)

/-- Dictionary lookup, first matching key (Python dicts have unique keys). -/
def dictGet (r : Rec) (k : String) : Option JPrim :=
  match r with
  | [] => none
  | (k1, v1) :: rest => if k1 = k then some v1 else dictGet rest k

/-- Python dict assignment d[k] = v: overwrite in place if the key exists
(keeping its position), otherwise append at the end. -/
def dictSet (r : Rec) (k : String) (v : JPrim) : Rec :=
  match r with
  | [] => [(k, v)]
  | (k1, v1) :: rest => if k1 = k then (k, v) :: rest else (k1, v1) :: dictSet rest k v

/-- Python d.get(k): the value if present, else None. -/
def pyGet (r : Rec) (k : String) : JPrim :=
  (dictGet r k).getD JPrim.pnull

/-- Python equality on primitive values: booleans compare equal to the
integers 0 and 1; otherwise values of distinct types are unequal and values
of the same type compare structurally. -/
def JPrim.toNumber : JPrim → Option Int
  | .pint i => some i
  | .pbool b => some (if b then 1 else 0)
  | _ => none

/-- Python == on the embedded value fragment. -/
def pyEq (a b : JPrim) : Bool :=
  match a.toNumber, b.toNumber with
  | some x, some y => x == y
  | _, _ => a == b

/-- Python str() of a primitive value. -/
def pyStr : JPrim → String
  | .pstr s => s
  | .pint i => toString i
  | .pbool b => if b then "True" else "False"
  | .pnull => "None"

/-- Whitespace stripped by Python str.strip() (the ASCII whitespace
characters; Unicode whitespace beyond ASCII is not modelled). -/
def isPyWs (c : Char) : Bool :=
  c = ' ' || c = '\t' || c = '\n' || c = '\r' || c = Char.ofNat 11 || c = Char.ofNat 12

/-- Python str.strip() on a character list. -/
def pyStripList (cs : List Char) : List Char :=
  ((cs.dropWhile isPyWs).reverse.dropWhile isPyWs).reverse

/-- Python str.strip(). -/
def pyStrip (s : String) : String :=
  String.mk (pyStripList s.data)

/-- ASCII decimal digit test. -/
def isDigitChar (c : Char) : Bool :=
  48 ≤ c.toNat && c.toNat ≤ 57

/-- Numeric value of a list of ASCII decimal digits. -/
def digitsToNat (cs : List Char) : Nat :=
  cs.foldl (fun a c => a * 10 + (c.toNat - 48)) 0

/-- Python int(x) on the embedded value fragment, as used by the patch
handlers (which catch ValueError and TypeError): integers pass through,
booleans convert to 0/1, None raises TypeError (here: none), and strings are
stripped and parsed as an optional sign followed by ASCII decimal digits.
Underscore digit separators and non-ASCII decimal digits accepted by Python
are not modelled. -/
def pyInt? : JPrim → Option Int
  | .pint i => some i
  | .pbool b => some (if b then 1 else 0)
  | .pnull => none
  | .pstr s =>
    match pyStripList s.data with
    | '-' :: ds => if ds ≠ [] ∧ ds.all isDigitChar then some (-(digitsToNat ds : Int)) else none
    | '+' :: ds => if ds ≠ [] ∧ ds.all isDigitChar then some ((digitsToNat ds : Int)) else none
    | ds => if ds ≠ [] ∧ ds.all isDigitChar then some ((digitsToNat ds : Int)) else none

/-- The code-point ranges of the characters classified as digits by Python
str.isdigit: exactly those with Unicode property Numeric_Type=Digit or
Numeric_Type=Decimal.  The table lists every such range of Unicode 14.0,
the character database shipped with CPython 3.11: the ASCII digits, the
Latin-1 superscripts, the decimal digits of the other scripts (Arabic-Indic
through Adlam), and the Digit-typed compatibility forms (super- and
subscripts, circled, parenthesized, full-stop and double-circled digits,
dingbat digits, Ethiopic and Kharoshthi digits, segmented digits and the
like). -/
def pythonDigitRanges : List (Nat × Nat) :=
  [(0x30, 0x39), (0xb2, 0xb3), (0xb9, 0xb9), (0x660, 0x669), (0x6f0, 0x6f9),
   (0x7c0, 0x7c9), (0x966, 0x96f), (0x9e6, 0x9ef), (0xa66, 0xa6f), (0xae6, 0xaef),
   (0xb66, 0xb6f), (0xbe6, 0xbef), (0xc66, 0xc6f), (0xce6, 0xcef), (0xd66, 0xd6f),
   (0xde6, 0xdef), (0xe50, 0xe59), (0xed0, 0xed9), (0xf20, 0xf29), (0x1040, 0x1049),
   (0x1090, 0x1099), (0x1369, 0x1371), (0x17e0, 0x17e9), (0x1810, 0x1819),
   (0x1946, 0x194f), (0x19d0, 0x19da), (0x1a80, 0x1a89), (0x1a90, 0x1a99),
   (0x1b50, 0x1b59), (0x1bb0, 0x1bb9), (0x1c40, 0x1c49), (0x1c50, 0x1c59),
   (0x2070, 0x2070), (0x2074, 0x2079), (0x2080, 0x2089), (0x2460, 0x2468),
   (0x2474, 0x247c), (0x2488, 0x2490), (0x24ea, 0x24ea), (0x24f5, 0x24fd),
   (0x24ff, 0x24ff), (0x2776, 0x277e), (0x2780, 0x2788), (0x278a, 0x2792),
   (0xa620, 0xa629), (0xa8d0, 0xa8d9), (0xa900, 0xa909), (0xa9d0, 0xa9d9),
   (0xa9f0, 0xa9f9), (0xaa50, 0xaa59), (0xabf0, 0xabf9), (0xff10, 0xff19),
   (0x104a0, 0x104a9), (0x10a40, 0x10a43), (0x10d30, 0x10d39), (0x10e60, 0x10e68),
   (0x11052, 0x1105a), (0x11066, 0x1106f), (0x110f0, 0x110f9), (0x11136, 0x1113f),
   (0x111d0, 0x111d9), (0x112f0, 0x112f9), (0x11450, 0x11459), (0x114d0, 0x114d9),
   (0x11650, 0x11659), (0x116c0, 0x116c9), (0x11730, 0x11739), (0x118e0, 0x118e9),
   (0x11950, 0x11959), (0x11c50, 0x11c59), (0x11d50, 0x11d59), (0x11da0, 0x11da9),
   (0x16a60, 0x16a69), (0x16ac0, 0x16ac9), (0x16b50, 0x16b59), (0x1d7ce, 0x1d7ff),
   (0x1e140, 0x1e149), (0x1e2f0, 0x1e2f9), (0x1e950, 0x1e959), (0x1f100, 0x1f10a),
   (0x1fbf0, 0x1fbf9)]

/-- A character is a digit for Python str.isdigit iff its code point lies
in one of the ranges of the classification table. -/
def pythonCharIsDigit (c : Char) : Bool :=
  pythonDigitRanges.any fun p => p.1 ≤ c.toNat && c.toNat ≤ p.2

/-- Embedding of is_phone_number_valid: phone_number.isdigit(), true iff the
string is non-empty and every character is a digit in Python's sense. -/
def is_phone_number_valid (phone_number : String) : Bool :=
  !phone_number.data.isEmpty && phone_number.data.all pythonCharIsDigit

/-- Embedding of is_age_valid.  The handlers only call it on a value already
of type int (the pydantic field, or the result of int(...) in the patch
handler), where Python int(age) is the identity and cannot raise, so the
function reduces to the range check 0 < age < 100. -/
def is_age_valid (age : Int) : Bool :=
  0 < age && age < 100

/-- A calendar date, for datetime.date values. -/
structure Date where
  year : Nat
  month : Nat
  day : Nat
deriving Repr, DecidableEq

/-- Gregorian leap-year rule, as in Python's datetime module. -/
def isLeapYear (y : Nat) : Bool :=
  y % 4 = 0 && (y % 100 ≠ 0 || y % 400 = 0)

/-- Days in a month of the proleptic Gregorian calendar. -/
def daysInMonth (y m : Nat) : Nat :=
  if m = 2 then (if isLeapYear y then 29 else 28)
  else if m = 4 || m = 6 || m = 9 || m = 11 then 30
  else 31

/-- Embedding of datetime.date.fromisoformat on the canonical YYYY-MM-DD
format: exactly four digits, a dash, two digits, a dash, two digits, with
year in 1..9999 (datetime's MINYEAR..MAXYEAR), month in 1..12 and day
within the month.  Alternative ISO 8601 spellings accepted by newer Python
versions are not modelled. -/
def parseIsoDate (s : String) : Option Date :=
  match s.data with
  | [y1, y2, y3, y4, '-', m1, m2, '-', d1, d2] =>
    if ([y1, y2, y3, y4, m1, m2, d1, d2].all isDigitChar) then
      let y := digitsToNat [y1, y2, y3, y4]
      let m := digitsToNat [m1, m2]
      let d := digitsToNat [d1, d2]
      if 1 ≤ y ∧ 1 ≤ m ∧ m ≤ 12 ∧ 1 ≤ d ∧ d ≤ daysInMonth y m then
        some ⟨y, m, d⟩
      else none
    else none
  | _ => none

/-- Embedding of is_dob_valid: parse the date, compute the age as of today
(subtracting one when today's month/day precede the birthday's month/day),
and require 0 < age < 100.  The current date is passed explicitly. -/
def is_dob_valid (today : Date) (dob : String) : Bool :=
  match parseIsoDate dob with
  | none => false
  | some d =>
    let age : Int := (today.year : Int) - (d.year : Int) -
      (if today.month < d.month ∨ (today.month = d.month ∧ today.day < d.day) then 1 else 0)
    0 < age && age < 100

/-- Characters allowed in the local part of the email regular expression:
the character class with letters, digits, underscore, dot, plus, minus. -/
def isLocalChar (c : Char) : Bool :=
  c.isAlpha || c.isDigit || c = '_' || c = '.' || c = '+' || c = '-'

/-- Characters allowed in the domain label of the email regular expression. -/
def isDomainChar (c : Char) : Bool :=
  c.isAlpha || c.isDigit || c = '-'

/-- A top-level-domain segment of the email regular expression:
two or more ASCII letters. -/
def tldOk (seg : List Char) : Bool :=
  2 ≤ seg.length && seg.all Char.isAlpha

/-- Embedding of is_email_valid, a deterministic recognizer equivalent to
re.match on the anchored pattern with local part of one-or-more local
characters, an at sign, a domain of one-or-more domain characters, then
one-or-more dot-separated segments of two-or-more letters.  Since the local
class excludes the at sign and the domain class excludes the dot, the match
is forced to split at the first at sign and the first following dot.  The
dollar anchor of re.match also matches just before one trailing newline, so
one trailing newline is dropped first. -/
def is_email_valid (email : String) : Bool :=
  let cs0 := email.data
  let cs := if cs0.getLast? = some '\n' then cs0.dropLast else cs0
  let localPart := cs.takeWhile (fun c => c ≠ '@')
  match cs.dropWhile (fun c => c ≠ '@') with
  | '@' :: afterAt =>
    let domain := afterAt.takeWhile (fun c => c ≠ '.')
    match afterAt.dropWhile (fun c => c ≠ '.') with
    | '.' :: tldPart =>
      !localPart.isEmpty && localPart.all isLocalChar &&
      !domain.isEmpty && domain.all isDomainChar &&
      (tldPart.splitOn '.').all tldOk
    | _ => false
  | _ => false

/-! JSON serialization, modelling Python json.dumps with its default
settings (ensure_ascii, separators comma-space and colon-space) on the
record fragment: flat objects whose values are strings, integers, booleans
or null. -/

/-- The opening brace character. -/
def lbrace : Char := Char.ofNat 123

/-- The closing brace character. -/
def rbrace : Char := Char.ofNat 125

/-- ASCII digit character for a value below ten. -/
def digitChar (n : Nat) : Char := Char.ofNat (48 + n)

/-- Decimal digits of n in reverse order, with structural fuel. -/
def natDigitsGo : Nat → Nat → List Char
  | 0, _ => []
  | fuel+1, n => if n < 10 then [digitChar n] else digitChar (n % 10) :: natDigitsGo fuel (n / 10)

/-- Decimal representation of a natural number. -/
def natDump (n : Nat) : List Char := (natDigitsGo (n+1) n).reverse

/-- Decimal representation of an integer, as json.dumps prints int. -/
def intDump (i : Int) : List Char :=
  if i < 0 then '-' :: natDump (-i).toNat else natDump i.toNat

/-- Lowercase hexadecimal digit character. -/
def hexDigit (n : Nat) : Char :=
  if n < 10 then Char.ofNat (48 + n) else Char.ofNat (87 + n)

/-- Four lowercase hex digits of a value below 65536. -/
def hex4 (n : Nat) : List Char :=
  [hexDigit (n / 4096 % 16), hexDigit (n / 256 % 16), hexDigit (n / 16 % 16), hexDigit (n % 16)]

/-- Escaping of one character by json.dumps with ensure_ascii: quote and
backslash get a backslash, the common control characters use their short
escapes, other control characters and all characters outside printable
ASCII are written as backslash-u sequences, using a UTF-16 surrogate pair
above U+FFFF. -/
def escapeChar (c : Char) : List Char :=
  if c = '"' then ['\\', '"']
  else if c = '\\' then ['\\', '\\']
  else if c = '\n' then ['\\', 'n']
  else if c = '\t' then ['\\', 't']
  else if c = '\r' then ['\\', 'r']
  else if c.toNat = 8 then ['\\', 'b']
  else if c.toNat = 12 then ['\\', 'f']
  else if c.toNat < 32 then '\\' :: 'u' :: hex4 c.toNat
  else if c.toNat ≤ 126 then [c]
  else if c.toNat < 65536 then '\\' :: 'u' :: hex4 c.toNat
  else
    let v := c.toNat - 65536
    ('\\' :: 'u' :: hex4 (55296 + v / 1024)) ++ '\\' :: 'u' :: hex4 (56320 + v % 1024)

/-- Escaped form of a character list. -/
def escListChars : List Char → List Char
  | [] => []
  | c :: cs => escapeChar c ++ escListChars cs

/-- Serialized form of one primitive value. -/
def dumpPrim : JPrim → List Char
  | .pnull => ['n', 'u', 'l', 'l']
  | .pbool true => ['t', 'r', 'u', 'e']
  | .pbool false => ['f', 'a', 'l', 's', 'e']
  | .pint i => intDump i
  | .pstr s => '"' :: escListChars s.data ++ ['"']

/-- Serialized form of one key-value member. -/
def dumpKV (kv : String × JPrim) : List Char :=
  '"' :: escListChars kv.1.data ++ '"' :: ':' :: ' ' :: dumpPrim kv.2

/-- Serialized members, comma-space separated. -/
def dumpMembers : Rec → List Char
  | [] => []
  | [kv] => dumpKV kv
  | kv :: kv2 :: rest => dumpKV kv ++ ',' :: ' ' :: dumpMembers (kv2 :: rest)

/-- Embedding of json.dumps on a record dictionary. -/
def json_dumps (r : Rec) : String :=
  String.mk (lbrace :: dumpMembers r ++ [rbrace])

/-- Value of a hexadecimal digit character. -/
def hexVal (c : Char) : Option Nat :=
  if isDigitChar c then some (c.toNat - 48)
  else if 97 ≤ c.toNat ∧ c.toNat ≤ 102 then some (c.toNat - 87)
  else if 65 ≤ c.toNat ∧ c.toNat ≤ 70 then some (c.toNat - 55)
  else none

/-- The backslash-u branch of a JSON string escape: four hex digits; a
high surrogate must be followed by a second backslash-u low surrogate and
the pair combines into one scalar value (Python would produce a lone
surrogate inside the string, which a Unicode scalar cannot represent, so
lone surrogates are modelled as parse failures). -/
def parseEscapeU (r : List Char) : Option (Char × List Char) :=
  match r with
  | h1 :: h2 :: h3 :: h4 :: r2 =>
    match hexVal h1, hexVal h2, hexVal h3, hexVal h4 with
    | some a1, some a2, some a3, some a4 =>
      let n := a1 * 4096 + a2 * 256 + a3 * 16 + a4
      if 55296 ≤ n ∧ n ≤ 56319 then
        match r2 with
        | b1 :: u1 :: g1 :: g2 :: g3 :: g4 :: r3 =>
          if b1 = '\\' ∧ u1 = 'u' then
            match hexVal g1, hexVal g2, hexVal g3, hexVal g4 with
            | some e1, some e2, some e3, some e4 =>
              let m := e1 * 4096 + e2 * 256 + e3 * 16 + e4
              if 56320 ≤ m ∧ m ≤ 57343 then
                some (Char.ofNat (65536 + (n - 55296) * 1024 + (m - 56320)), r3)
              else none
            | _, _, _, _ => none
          else none
        | _ => none
      else if 56320 ≤ n ∧ n ≤ 57343 then none
      else some (Char.ofNat n, r2)
    | _, _, _, _ => none
  | _ => none

/-- One JSON string escape following a backslash. -/
def parseEscape (cs : List Char) : Option (Char × List Char) :=
  match cs with
  | [] => none
  | e :: r =>
    if e = '"' then some ('"', r)
    else if e = '\\' then some ('\\', r)
    else if e = '/' then some ('/', r)
    else if e = 'b' then some (Char.ofNat 8, r)
    else if e = 'f' then some (Char.ofNat 12, r)
    else if e = 'n' then some ('\n', r)
    else if e = 'r' then some ('\r', r)
    else if e = 't' then some ('\t', r)
    else if e = 'u' then parseEscapeU r
    else none

/-- JSON string body parser (after the opening quote), with structural
fuel; returns the decoded characters and the input after the closing
quote. -/
def parseStringGo : Nat → List Char → Option (List Char × List Char)
  | 0, _ => none
  | fuel+1, cs =>
    match cs with
    | [] => none
    | c :: rest =>
      if c = '"' then some ([], rest)
      else if c = '\\' then
        match parseEscape rest with
        | some (ch, rest2) =>
          match parseStringGo fuel rest2 with
          | some (s, r2) => some (ch :: s, r2)
          | none => none
        | none => none
      else if c.toNat < 32 then none
      else
        match parseStringGo fuel rest with
        | some (s, r2) => some (c :: s, r2)
        | none => none

/-- JSON natural-number token: one or more digits, no leading zero. -/
def parseNatTok (cs : List Char) : Option (Nat × List Char) :=
  let ds := cs.takeWhile isDigitChar
  if ds.isEmpty then none
  else if 2 ≤ ds.length ∧ ds.head? = some '0' then none
  else some (digitsToNat ds, cs.dropWhile isDigitChar)

/-- JSON integer token with optional minus sign. -/
def parseIntTok (cs : List Char) : Option (Int × List Char) :=
  match cs with
  | [] => none
  | c :: cs2 =>
    if c = '-' then
      match parseNatTok cs2 with
      | some (n, r) => some (-(n : Int), r)
      | none => none
    else
      match parseNatTok (c :: cs2) with
      | some (n, r) => some ((n : Int), r)
      | none => none

/-- One primitive JSON value: string, true, false, null or integer. -/
def parseValueTok (cs : List Char) : Option (JPrim × List Char) :=
  match cs with
  | [] => none
  | c :: rest =>
    if c = '"' then
      match parseStringGo (rest.length + 1) rest with
      | some (s, r) => some (.pstr (String.mk s), r)
      | none => none
    else if cs.take 4 = ['t', 'r', 'u', 'e'] then some (.pbool true, cs.drop 4)
    else if cs.take 5 = ['f', 'a', 'l', 's', 'e'] then some (.pbool false, cs.drop 5)
    else if cs.take 4 = ['n', 'u', 'l', 'l'] then some (.pnull, cs.drop 4)
    else
      match parseIntTok cs with
      | some (i, r) => some (.pint i, r)
      | none => none

/-- JSON whitespace. -/
def isJsonWs (c : Char) : Bool :=
  c = ' ' || c = '\t' || c = '\n' || c = '\r'

/-- Skip JSON whitespace. -/
def skipWs (cs : List Char) : List Char := cs.dropWhile isJsonWs

/-- One or more object members, with structural fuel; stops after the
closing brace. -/
def parseMembersAux : Nat → List Char → Option (List (String × JPrim) × List Char)
  | 0, _ => none
  | fuel+1, cs =>
    match skipWs cs with
    | c1 :: kr =>
      if c1 = '"' then
        match parseStringGo (kr.length + 1) kr with
        | some (k, r1) =>
          match skipWs r1 with
          | c2 :: r2 =>
            if c2 = ':' then
              match parseValueTok (skipWs r2) with
              | some (v, r3) =>
                match skipWs r3 with
                | c :: r4 =>
                  if c = ',' then
                    match parseMembersAux fuel r4 with
                    | some (ms, rest) => some ((String.mk k, v) :: ms, rest)
                    | none => none
                  else if c = rbrace then some ([(String.mk k, v)], r4)
                  else none
                | [] => none
              | none => none
            else none
          | [] => none
        | none => none
      else none
    | [] => none

/-- Embedding of json.loads on the fragment the application writes: a
single flat JSON object of primitive values.  Lines outside this fragment
(nested containers, floats, or non-object top-level values, which the
application itself never writes) are modelled as parse failures.  Duplicate
keys follow Python dict construction: the first occurrence fixes the
position, the last occurrence fixes the value. -/
def json_loads (s : String) : Option Rec :=
  match skipWs s.data with
  | c :: rest =>
    if c = lbrace then
      match skipWs rest with
      | c2 :: tail =>
        if c2 = rbrace then
          if (skipWs tail).isEmpty then some [] else none
        else
          match parseMembersAux (rest.length + 1) rest with
          | some (ms, tail2) =>
            if (skipWs tail2).isEmpty then
              some (ms.foldl (fun d kv => dictSet d kv.1 kv.2) [])
            else none
          | none => none
      | [] => none
    else none
  | [] => none

/-! The service layer shared by both variants. -/

/-- The pydantic request/response model.  The password field is declared
with exclude=True, so it is accepted on input but omitted from every
serialized response. -/
structure User where
  name : String
  age : Int
  dob : String
  address : String
  phone_number : String
  email : String
  username : String
  password : String
deriving Repr, DecidableEq

/-- The new_user dictionary built by create_user, fields in source order. -/
def User.toRec (u : User) : Rec :=
  [("name", .pstr u.name), ("age", .pint u.age), ("dob", .pstr u.dob),
   ("address", .pstr u.address), ("phone_number", .pstr u.phone_number),
   ("email", .pstr u.email), ("username", .pstr u.username),
   ("password", .pstr u.password)]

/-- The error taxonomy of the HTTP layer: 409 Conflict, 422 validation
failure, 404 not found, each carrying its detail message. -/
inductive Err where
  | conflict (detail : String)
  | validation (detail : String)
  | notFound (detail : String)
deriving Repr, DecidableEq

/-- Decidable equality of handler results, for evaluating the model on
concrete inputs. -/
instance {e a : Type} [DecidableEq e] [DecidableEq a] : DecidableEq (Except e a) := fun x y =>
  match x, y with
  | .ok v, .ok w => if h : v = w then isTrue (by rw [h]) else isFalse (by intro hh; cases hh; exact h rfl)
  | .error v, .error w => if h : v = w then isTrue (by rw [h]) else isFalse (by intro hh; cases hh; exact h rfl)
  | .ok _, .error _ => isFalse (by intro hh; cases hh)
  | .error _, .ok _ => isFalse (by intro hh; cases hh)

/-- HTTP status code of each error. -/
def Err.statusCode : Err → Nat
  | .conflict _ => 409
  | .validation _ => 422
  | .notFound _ => 404

/-- Serialization of a User response: the model fields in declaration
order, with the password field excluded (Field(..., exclude=True)). -/
def responseFields : List String :=
  ["name", "age", "dob", "address", "phone_number", "email", "username"]

/-- Response serialization of a record through the User response model:
only the declared fields appear, and password is excluded. -/
def userResponse (r : Rec) : Rec :=
  responseFields.filterMap (fun k => (dictGet r k).map (fun v => (k, v)))

/-- The uniqueness loop at the top of create_user in both variants: scan
the store, and for each non-tombstoned record raise 409 if its username
matches, then 409 if its phone number matches. -/
def findConflict (store : Store) (u : User) : Option Err :=
  match store with
  | [] => none
  | none :: rest => findConflict rest u
  | some r :: rest =>
    if pyEq (pyGet r "username") (.pstr u.username) then
      some (.conflict "Username already exists")
    else if pyEq (pyGet r "phone_number") (.pstr u.phone_number) then
      some (.conflict "Phone number already exists")
    else findConflict rest u

/-- The four field validations of create_user, in source order, each with
its 422 detail message. -/
def validateUser (today : Date) (u : User) : Option Err :=
  if !is_phone_number_valid u.phone_number then some (.validation "Invalid phone number. Digits only.")
  else if !is_age_valid u.age then some (.validation "Invalid age. Must be 1-99.")
  else if !is_dob_valid today u.dob then some (.validation "Invalid date.")
  else if !is_email_valid u.email then some (.validation "Invalid email format.")
  else none

/-- The username-uniqueness loop of update_user: if the input contains a
username, scan all slots with their indices and flag a conflict for any
other non-tombstoned slot whose username equals the new one. -/
def usernameConflict (store : Store) (user_id : Int) (newUsername : JPrim) : Bool :=
  store.enum.any fun p =>
    match p.2 with
    | some r => ((p.1 : Int) != user_id) && pyEq (pyGet r "username") newUsername
    | none => false

/-- Whether the username branch of update_user raises 409: only when the
key is present in the input and conflicts with another slot. -/
def usernameCheckFails (store : Store) (user_id : Int) (updates : Rec) : Bool :=
  match dictGet updates "username" with
  | some newUsername => usernameConflict store user_id newUsername
  | none => false

/-- Phone validation of update_user: only if the key is present; the value
is passed through str() before is_phone_number_valid. -/
def checkPhone (updates : Rec) : Option Err :=
  match dictGet updates "phone_number" with
  | some v =>
    if is_phone_number_valid (pyStr v) then none
    else some (.validation "Invalid phone number. Digits only.")
  | none => none

/-- Age validation of update_user: only if the key is present; int(value)
accepts a number or numeric string and raises otherwise (caught as 422),
then the converted integer must pass is_age_valid. -/
def checkAge (updates : Rec) : Option Err :=
  match dictGet updates "age" with
  | some v =>
    match pyInt? v with
    | none => some (.validation "Invalid age. Must be 1-99.")
    | some n => if is_age_valid n then none else some (.validation "Invalid age. Must be 1-99.")
  | none => none

/-- Dob validation of update_user: only if the key is present AND the value
is a string (isinstance(updates["dob"], str)); a non-string dob value
bypasses validation entirely. -/
def checkDob (today : Date) (updates : Rec) : Option Err :=
  match dictGet updates "dob" with
  | some (.pstr s) =>
    if is_dob_valid today s then none
    else some (.validation "Invalid dob format. Use YYYY-MM-DD.")
  | _ => none

/-- Email validation of update_user: only if the key is present; the value
is passed through str() before is_email_valid. -/
def checkEmail (updates : Rec) : Option Err :=
  match dictGet updates "email" with
  | some v =>
    if is_email_valid (pyStr v) then none
    else some (.validation "Invalid email format.")
  | none => none

/-- The four per-field validations of update_user, in source order. -/
def update_field_checks (today : Date) (updates : Rec) : Option Err :=
  checkPhone updates <|> checkAge updates <|> checkDob today updates <|> checkEmail updates

/-- The allowed_fields set of update_user. -/
def allowed_fields : List String :=
  ["name", "age", "dob", "address", "phone_number", "email", "password", "username"]

/-- The apply loop of the in-memory update_user: for each input pair in
order, assign it into the record if its key is a known field, silently
ignoring unknown keys. -/
def applyUpdates (current : Rec) (updates : Rec) : Rec :=
  updates.foldl (fun r kv => if allowed_fields.contains kv.1 then dictSet r kv.1 kv.2 else r) current

/-- Embedding of save_users_to_file: rewrite the whole file as one
json.dumps line per non-tombstoned record, in store order. -/
def save_users_to_file (store : Store) : List String :=
  (store.filterMap (fun x => x)).map json_dumps

/-- The read loop of load_users_from_file: parse each stripped line and
append it; the try/except wraps the whole loop, so the first line that
fails to parse aborts the loop, keeping the records read so far and
discarding all later lines. -/
def loadLoop (acc : List Rec) : List String → List Rec
  | [] => acc
  | line :: rest =>
    match json_loads (pyStrip line) with
    | some r => loadLoop (acc ++ [r]) rest
    | none => acc

/-- Embedding of load_users_from_file: a missing (or unreadable) file
yields an empty store; otherwise read line by line with loadLoop. -/
def load_users_from_file : Option (List String) → List Rec
  | none => []
  | some lines => loadLoop [] lines

namespace Myapp

/-- Embedding of the in-memory/file create_user: scan for username/phone
conflicts first, then run the four validations, then append the new record
at the end of the store (tombstoned slots are never reused) and rewrite the
mirror file.  Returns the new store and the created record. -/
def create_user (today : Date) (store : Store) (u : User) : Except Err (Store × Rec) :=
  match findConflict store u with
  | some e => .error e
  | none =>
    match validateUser today u with
    | some e => .error e
    | none => .ok (store ++ [some u.toRec], u.toRec)

/-- Embedding of the in-memory/file get_user: 404 when the identifier is
negative, out of range or tombstoned. -/
def get_user (store : Store) (user_id : Int) : Except Err Rec :=
  if user_id < 0 ∨ (store.length : Int) ≤ user_id then .error (.notFound "User not found")
  else
    match store.get? user_id.toNat with
    | some (some r) => .ok r
    | _ => .error (.notFound "User not found")

/-- Embedding of the in-memory/file list_users: the non-tombstoned records
in store order. -/
def list_users (store : Store) : List Rec :=
  store.filterMap (fun x => x)

/-- Embedding of the in-memory/file update_user: 404 when the target is
invalid; 409 when a provided username collides with another slot; then the
per-field validations in source order; then the apply loop merges the
recognized fields into the record in place and the mirror file is
rewritten.  Returns the new store and the patched record. -/
def update_user (today : Date) (store : Store) (user_id : Int) (updates : Rec) :
    Except Err (Store × Rec) :=
  if user_id < 0 ∨ (store.length : Int) ≤ user_id then .error (.notFound "User not found")
  else
    match store.get? user_id.toNat with
    | some (some current) =>
      if usernameCheckFails store user_id updates then
        .error (.conflict "Target username already exists")
      else
        match update_field_checks today updates with
        | some e => .error e
        | none =>
          let current2 := applyUpdates current updates
          .ok (store.set user_id.toNat (some current2), current2)
    | _ => .error (.notFound "User not found")

/-- Embedding of the in-memory/file delete_user: 404 when the target is
invalid; otherwise mark the slot as deleted without shifting identifiers
and rewrite the mirror file. -/
def delete_user (store : Store) (user_id : Int) : Except Err Store :=
  if user_id < 0 ∨ (store.length : Int) ≤ user_id then .error (.notFound "User not found")
  else
    match store.get? user_id.toNat with
    | some (some _) => .ok (store.set user_id.toNat none)
    | _ => .error (.notFound "User not found")

end Myapp

namespace Db

/-- A row of the users table (the UserModel columns besides the primary
key).  Column values are JPrim because the patch handler may setattr an
arbitrary request value onto its row object. -/
structure Row where
  name : JPrim
  age : JPrim
  dob : JPrim
  address : JPrim
  phone_number : JPrim
  email : JPrim
  username : JPrim
  password : JPrim
deriving Repr, DecidableEq

/-- The row built by create_user from the validated request. -/
def userToRow (u : User) : Row :=
  ⟨.pstr u.name, .pint u.age, .pstr u.dob, .pstr u.address,
   .pstr u.phone_number, .pstr u.email, .pstr u.username, .pstr u.password⟩

/-- The dictionary built from a row when the in-memory slice is refreshed
from the table, fields in source order. -/
def Row.toRec (r : Row) : Rec :=
  [("name", r.name), ("age", r.age), ("dob", r.dob), ("address", r.address),
   ("phone_number", r.phone_number), ("email", r.email),
   ("username", r.username), ("password", r.password)]

/-- Python setattr(row, key, value) for the known column names. -/
def setattrRow (r : Row) (k : String) (v : JPrim) : Row :=
  if k = "name" then { r with name := v }
  else if k = "age" then { r with age := v }
  else if k = "dob" then { r with dob := v }
  else if k = "address" then { r with address := v }
  else if k = "phone_number" then { r with phone_number := v }
  else if k = "email" then { r with email := v }
  else if k = "username" then { r with username := v }
  else if k = "password" then { r with password := v }
  else r

/-- The unique constraints of the users table: committing a new row fails
when an existing row has the same username or the same phone number. -/
def rowConflict (table : List (Int × Row)) (r : Row) : Bool :=
  table.any fun p => p.2.username == r.username || p.2.phone_number == r.phone_number

/-- Primary-key lookup, db.get(UserModel, user_id). -/
def tableGet (table : List (Int × Row)) (i : Int) : Option Row :=
  (table.find? (fun p => p.1 == i)).map (fun p => p.2)

/-- The state of the DB-backed variant: the users table (rows keyed by the
autoincrement primary key, which SQLite starts at 1), the next id the table
will assign, the global user_store slice, and the log file. -/
structure DbState where
  table : List (Int × Row)
  nextId : Int
  mem : Store
  file : List String
deriving Repr, DecidableEq

/-- Rebuilding user_store by re-reading all rows from the table. -/
def refreshMem (table : List (Int × Row)) : Store :=
  table.map (fun p => some p.2.toRec)

/-- Embedding of the DB-backed create_user: scan the in-memory user_store
for username/phone conflicts first, then run the four validations, then
insert the row; a unique-constraint violation on commit is rolled back and
surfaced as 409.  After a successful commit the slice is refreshed from the
table and the file rewritten; the response echoes the request fields. -/
def create_user (today : Date) (st : DbState) (u : User) : Except Err (DbState × User) :=
  match findConflict st.mem u with
  | some e => .error e
  | none =>
    match validateUser today u with
    | some e => .error e
    | none =>
      let row := userToRow u
      if rowConflict st.table row then .error (.conflict "Username or phone already exists")
      else
        let table2 := st.table ++ [(st.nextId, row)]
        let mem2 := refreshMem table2
        .ok ({ table := table2, nextId := st.nextId + 1, mem := mem2,
               file := save_users_to_file mem2 }, u)

/-- Embedding of the DB-backed get_user: primary-key lookup, 404 when the
row is absent. -/
def get_user (st : DbState) (user_id : Int) : Except Err Row :=
  match tableGet st.table user_id with
  | some row => .ok row
  | none => .error (.notFound "User not found")

/-- Embedding of the DB-backed list_users: all rows of the table. -/
def list_users (st : DbState) : List Rec :=
  st.table.map (fun p => p.2.toRec)

/-- Embedding of the DB-backed update_user.  The source fetches the row
inside a with-block that closes the session before anything else happens,
so the row object is expunged and detached; later calls on the reused
session open a fresh transaction that tracks no changes, so no setattr on
the detached row ever reaches the table and the commits cannot fail.  The
apply loop commits, refreshes the slice and file from the (unchanged)
table, and returns inside its first iteration, so only the first input
entry is examined: it is assigned onto the detached row when its key is a
known field and ignored otherwise.  With an empty input the loop body never
runs and the endpoint falls off the end, returning no record (none) and
performing no refresh. -/
def update_user (today : Date) (st : DbState) (user_id : Int) (updates : Rec) :
    Except Err (Option Row × DbState) :=
  match tableGet st.table user_id with
  | none => .error (.notFound "User not found")
  | some row =>
    if usernameCheckFails st.mem user_id updates then
      .error (.conflict "Target username already exists")
    else
      match update_field_checks today updates with
      | some e => .error e
      | none =>
        match updates with
        | [] => .ok (none, st)
        | (k, v) :: _ =>
          let row2 := if allowed_fields.contains k then setattrRow row k v else row
          let mem2 := refreshMem st.table
          .ok (some row2, { st with mem := mem2, file := save_users_to_file mem2 })

/-- Embedding of the DB-backed delete_user: 404 when the row is absent;
otherwise delete the row, commit, refresh the slice from the table and
rewrite the file. -/
def delete_user (st : DbState) (user_id : Int) : Except Err DbState :=
  match tableGet st.table user_id with
  | none => .error (.notFound "User not found")
  | some _ =>
    let table2 := st.table.filter (fun p => p.1 != user_id)
    let mem2 := refreshMem table2
    .ok { table := table2, nextId := st.nextId, mem := mem2,
          file := save_users_to_file mem2 }

/-- Consistency of the three representations of the DB-backed variant: the
in-memory slice holds exactly the table rows as dictionaries, and the log
file is the serialized slice. -/
def mirrors_consistent (st : DbState) : Prop :=
  st.mem = refreshMem st.table ∧ st.file = save_users_to_file st.mem

end Db

/-! Concrete data used by the closed theorems below. -/

/-- A fixed current date for the closed theorems (the handlers receive the
current date as an explicit parameter). -/
def today0 : Date := ⟨2026, 10, 12⟩

/-- A request that passes all four validations. -/
def alice : User :=
  ⟨"Alice", 30, "1990-01-01", "1 Main St", "0123456789", "a@b.com", "alice", "pw1"⟩

/-- A second request that passes all four validations. -/
def carol : User :=
  ⟨"Carol", 40, "1985-05-05", "3 Main St", "5550001111", "c@d.org", "carol", "pw3"⟩

/-- A request whose username collides with alice while its phone number is
also invalid (empty). -/
def bobBad : User :=
  ⟨"Bob", 30, "1990-01-01", "2 Main St", "", "b@b.com", "alice", "pw2"⟩

/-- The record of alice after patching its dob with the integer 5. -/
def aliceRecDob5 : Rec :=
  [("name", .pstr "Alice"), ("age", .pint 30), ("dob", .pint 5),
   ("address", .pstr "1 Main St"), ("phone_number", .pstr "0123456789"),
   ("email", .pstr "a@b.com"), ("username", .pstr "alice"),
   ("password", .pstr "pw1")]

/-- The table row created for alice in the DB-backed variant. -/
def aliceRow : Db.Row := Db.userToRow alice

/-- A one-row users table. -/
def dbTable0 : List (Int × Db.Row) := [(1, aliceRow)]

/-- A consistent DB-backed state holding only alice. -/
def dbState0 : Db.DbState :=
  { table := dbTable0, nextId := 2, mem := Db.refreshMem dbTable0,
    file := save_users_to_file (Db.refreshMem dbTable0) }

/-- A well-formed log file line and a malformed one. -/
def goodLineA : String := json_dumps [("name", .pstr "A")]

/-- A second well-formed log file line. -/
def goodLineB : String := json_dumps [("name", .pstr "B")]

/-- A line that fails to parse as JSON. -/
def badLine : String := "\x7b"

/-! Lemmas about dictionaries and stores. -/

theorem dictGet_dictSet_self (r : Rec) (k : String) (v : JPrim) :
    dictGet (dictSet r k v) k = some v := by
  induction r with
  | nil => simp [dictSet, dictGet]
  | cons kv rest ih =>
    obtain ⟨k1, v1⟩ := kv
    by_cases h : k1 = k
    · simp [dictSet, h, dictGet]
    · simp [dictSet, h, dictGet, ih]

theorem dictGet_dictSet_ne (r : Rec) (k k2 : String) (v : JPrim) (h : k2 ≠ k) :
    dictGet (dictSet r k v) k2 = dictGet r k2 := by
  induction r with
  | nil => simp [dictSet, dictGet, Ne.symm h]
  | cons kv rest ih =>
    obtain ⟨k1, v1⟩ := kv
    by_cases h1 : k1 = k
    · subst h1
      simp [dictSet, dictGet, Ne.symm h]
    · simp [dictSet, h1, dictGet, ih]

theorem dictGet_some_mem (r : Rec) (k : String) (v : JPrim)
    (h : dictGet r k = some v) : (k, v) ∈ r := by
  induction r with
  | nil => simp [dictGet] at h
  | cons kv rest ih =>
    obtain ⟨k1, v1⟩ := kv
    by_cases h1 : k1 = k
    · subst h1
      simp [dictGet] at h
      simp [h]
    · simp [dictGet, h1] at h
      exact List.mem_cons_of_mem _ (ih h)

theorem applyUpdates_cons (current : Rec) (k : String) (v : JPrim) (rest : Rec) :
    applyUpdates current ((k, v) :: rest) =
      applyUpdates (if allowed_fields.contains k then dictSet current k v else current) rest := rfl

theorem dictGet_applyUpdates_notMem (updates : Rec) :
    ∀ (current : Rec) (k : String), dictGet updates k = none →
      dictGet (applyUpdates current updates) k = dictGet current k := by
  induction updates with
  | nil => intro c k _; rfl
  | cons kv rest ih =>
    intro c k h
    obtain ⟨k1, v1⟩ := kv
    have h1 : ¬ k1 = k := by
      intro he
      simp [dictGet, he] at h
    have h2 : dictGet rest k = none := by
      simpa [dictGet, h1] using h
    rw [applyUpdates_cons, ih _ k h2]
    have hk : k ≠ k1 := fun he => h1 he.symm
    by_cases ha : k1 ∈ allowed_fields
    · simp [ha, dictGet_dictSet_ne _ _ _ _ hk]
    · simp [ha]

theorem applyUpdates_all_unknown (updates : Rec) :
    ∀ current : Rec, (∀ kv ∈ updates, allowed_fields.contains kv.1 = false) →
      applyUpdates current updates = current := by
  induction updates with
  | nil => intro c _; rfl
  | cons kv rest ih =>
    intro c h
    obtain ⟨k1, v1⟩ := kv
    have h1 : allowed_fields.contains k1 = false := h (k1, v1) (List.mem_cons_self _ _)
    rw [applyUpdates_cons, h1]
    simp only [Bool.false_eq_true, if_false]
    exact ih c (fun kv hm => h kv (List.mem_cons_of_mem _ hm))

theorem list_set_self {α : Type} :
    ∀ (l : List α) (n : Nat) (a : α), l[n]? = some a → l.set n a = l
  | [], n, a, h => by simp at h
  | x :: xs, 0, a, h => by
    simp at h
    simp [List.set, h]
  | x :: xs, n+1, a, h => by
    simp at h
    simp [List.set, list_set_self xs n a h]

/-! Claim theorems. -/

/-- C1 (counterexample): on a store whose only slot is tombstoned, a valid
create succeeds but appends a new slot at index 1, leaving slot 0
tombstoned: a subsequent get of identifier 0 is NotFound, so the lowest
tombstoned identifier was not reused. -/
theorem C1_counterexample :
    Myapp.create_user today0 [Option.none] alice =
      .ok ([Option.none, some alice.toRec], alice.toRec) ∧
    Myapp.get_user [Option.none, some alice.toRec] 0 =
      .error (.notFound "User not found") := by
  constructor
  · decide
  · decide

/-- C1 (amended): in the in-memory/file variant a successful create never
reuses a tombstoned slot: the new store is always the old store with the
new record appended as a fresh slot at the end, so every prior slot,
tombstoned or not, is unchanged. -/
theorem C1_create_appends (today : Date) (store : Store) (u : User)
    (store2 : Store) (r : Rec)
    (h : Myapp.create_user today store u = .ok (store2, r)) :
    store2 = store ++ [some r] := by
  unfold Myapp.create_user at h
  cases hf : findConflict store u with
  | some e => rw [hf] at h; cases h
  | none =>
    rw [hf] at h
    cases hv : validateUser today u with
    | some e => rw [hv] at h; cases h
    | none =>
      rw [hv] at h
      cases h
      rfl

/-- C1 (witness): the amended theorem applied to the concrete tombstoned
store. -/
theorem C1_create_appends_witness :
    ([Option.none, some alice.toRec] : Store) = [Option.none] ++ [some alice.toRec] :=
  C1_create_appends today0 [Option.none] alice _ _ (by decide)

/-- C3 (counterexample): with alice in the store, creating bobBad (same
username as alice, empty and hence invalid phone number) yields Conflict,
not ValidationError: the uniqueness scan runs before the field
validations. -/
theorem C3_counterexample :
    Myapp.create_user today0 [some alice.toRec] bobBad =
      .error (.conflict "Username already exists") ∧
    is_phone_number_valid bobBad.phone_number = false := by
  constructor
  · decide
  · decide

/-- C3 (amended): in both variants the uniqueness scan over the store is
evaluated before the four field validations, so a colliding input yields
Conflict even when its fields are invalid; only a non-colliding input can
reach the validations and yield ValidationError (shown here for the first
validation, the phone check). -/
theorem C3_uniqueness_before_validation :
    (∀ (today : Date) (store : Store) (u : User) (e : Err),
      findConflict store u = some e → Myapp.create_user today store u = .error e) ∧
    (∀ (today : Date) (st : Db.DbState) (u : User) (e : Err),
      findConflict st.mem u = some e → Db.create_user today st u = .error e) ∧
    (∀ (today : Date) (store : Store) (u : User),
      findConflict store u = none → is_phone_number_valid u.phone_number = false →
      Myapp.create_user today store u =
        .error (.validation "Invalid phone number. Digits only.")) ∧
    (∀ (today : Date) (st : Db.DbState) (u : User),
      findConflict st.mem u = none → is_phone_number_valid u.phone_number = false →
      Db.create_user today st u =
        .error (.validation "Invalid phone number. Digits only.")) := by
  refine ⟨?_, ?_, ?_, ?_⟩
  · intro today store u e hf
    unfold Myapp.create_user
    rw [hf]
  · intro today st u e hf
    unfold Db.create_user
    rw [hf]
  · intro today store u hf hp
    unfold Myapp.create_user
    rw [hf]
    unfold validateUser
    rw [hp]
    rfl
  · intro today st u hf hp
    unfold Db.create_user
    rw [hf]
    unfold validateUser
    rw [hp]
    rfl

/-- C3 (witness): the amended theorem applied to the concrete colliding
invalid request. -/
theorem C3_witness :
    Myapp.create_user today0 [some alice.toRec] bobBad =
      .error (.conflict "Username already exists") :=
  C3_uniqueness_before_validation.1 today0 [some alice.toRec] bobBad
    (.conflict "Username already exists") (by decide)

/-- C8 (counterexample): the superscript-two, Arabic-Indic two, fullwidth
four and superscript-four characters are all accepted by the phone
validator (Python str.isdigit classifies each as a digit) although none of
them is a decimal digit 0-9, so a string with a non-decimal-digit
character does not always fail. -/
theorem C8_counterexample :
    is_phone_number_valid "²" = true ∧
    "²".data.all isDigitChar = false ∧
    is_phone_number_valid "٢" = true ∧
    "٢".data.all isDigitChar = false ∧
    is_phone_number_valid "４" = true ∧
    "４".data.all isDigitChar = false ∧
    is_phone_number_valid "⁴" = true ∧
    "⁴".data.all isDigitChar = false := by
  refine ⟨by decide, by decide, by decide, by decide, by decide, by decide, by decide, by decide⟩

/-- C8 (amended): the phone validator returns true iff the string is
non-empty and the code point of every character lies in Python's
str.isdigit classification (the Numeric_Type Digit and Decimal
characters), which contains the decimal digits 0-9 but also the other
Unicode digit characters; the empty string and strings with characters
outside that classification fail. -/
theorem C8_phone_isdigit (s : String) :
    is_phone_number_valid s = true ↔
      s.data ≠ [] ∧ ∀ c ∈ s.data, ∃ p ∈ pythonDigitRanges, p.1 ≤ c.toNat ∧ c.toNat ≤ p.2 := by
  simp [is_phone_number_valid, pythonCharIsDigit, List.all_eq_true, List.any_eq_true,
    List.isEmpty_iff, and_comm]

/-- Helper for the patch theorems: the bounds check of update_user passes
when the slot lookup succeeds at a non-negative identifier. -/
theorem update_bounds_ok (store : Store) (user_id : Int) (current : Rec)
    (h0 : 0 ≤ user_id) (h : store.get? user_id.toNat = some (some current)) :
    ¬(user_id < 0 ∨ (store.length : Int) ≤ user_id) := by
  have hlt : user_id.toNat < store.length := by
    have := List.get?_eq_some.mp h
    exact this.1
  intro hc
  rcases hc with hc | hc
  · omega
  · have : (user_id.toNat : Int) = user_id := Int.toNat_of_nonneg h0
    omega

/-- Helper: the empty patch passes every per-field validation. -/
theorem update_field_checks_nil (today : Date) : update_field_checks today [] = none := rfl

/-- C10: patching an existing identifier with an empty field set succeeds,
returns the stored record unchanged, and leaves the store identical: the
empty patch is the identity. -/
theorem C10_empty_patch_identity (today : Date) (store : Store) (user_id : Int) (current : Rec)
    (h0 : 0 ≤ user_id) (h : store.get? user_id.toNat = some (some current)) :
    Myapp.update_user today store user_id [] = .ok (store, current) := by
  unfold Myapp.update_user
  rw [if_neg (update_bounds_ok store user_id current h0 h), h]
  have hu : usernameCheckFails store user_id [] = false := rfl
  rw [hu]
  simp only [Bool.false_eq_true, if_false, update_field_checks_nil]
  have hs : store.set user_id.toNat (some (applyUpdates current [])) = store := by
    apply list_set_self
    rw [← List.get?_eq_getElem?]
    exact h
  rw [hs]
  rfl

/-- C10 (witness): the empty patch on the concrete one-record store. -/
theorem C10_witness :
    Myapp.update_user today0 [some alice.toRec] 0 [] = .ok ([some alice.toRec], alice.toRec) :=
  C10_empty_patch_identity today0 [some alice.toRec] 0 alice.toRec (by decide) (by decide)

/-- C6 (counterexample): patching dob with the integer 5 on an existing
record is accepted and applied, although 5 is not (on any reading) a valid
ISO date: the isinstance guard skips dob validation for non-string values,
so a present recognized field is not always checked by its validator. -/
theorem C6_counterexample :
    Myapp.update_user today0 [some alice.toRec] 0 [("dob", .pint 5)] =
      .ok ([some aliceRecDob5], aliceRecDob5) ∧
    dictGet aliceRecDob5 "dob" = some (.pint 5) ∧
    parseIsoDate (pyStr (.pint 5)) = none := by
  refine ⟨by decide, by decide, by decide⟩

/-- C6 (amended): in the patch handler a present dob is validated only when
its value is a string (a non-string dob bypasses validation and is applied
as-is); when the per-field validations fail the patch is rejected with that
error and the store is untouched, when they pass the recognized fields are
merged, and fields absent from the input are never validated or touched. -/
theorem C6_patch_validation :
    (∀ (today : Date) (updates : Rec) (s2 : String),
      dictGet updates "dob" = some (.pstr s2) →
      checkDob today updates =
        (if is_dob_valid today s2 then none
         else some (.validation "Invalid dob format. Use YYYY-MM-DD."))) ∧
    (∀ (today : Date) (updates : Rec),
      (∀ s2 : String, dictGet updates "dob" ≠ some (.pstr s2)) →
      checkDob today updates = none) ∧
    (∀ (today : Date) (store : Store) (user_id : Int) (updates : Rec) (current : Rec) (e : Err),
      0 ≤ user_id → store.get? user_id.toNat = some (some current) →
      usernameCheckFails store user_id updates = false →
      update_field_checks today updates = some e →
      Myapp.update_user today store user_id updates = .error e) ∧
    (∀ (today : Date) (store : Store) (user_id : Int) (updates : Rec) (current : Rec),
      0 ≤ user_id → store.get? user_id.toNat = some (some current) →
      usernameCheckFails store user_id updates = false →
      update_field_checks today updates = none →
      Myapp.update_user today store user_id updates =
        .ok (store.set user_id.toNat (some (applyUpdates current updates)),
             applyUpdates current updates)) ∧
    (∀ (current updates : Rec) (k : String),
      dictGet updates k = none →
      dictGet (applyUpdates current updates) k = dictGet current k) := by
  refine ⟨?_, ?_, ?_, ?_, ?_⟩
  · intro today updates s2 hd
    unfold checkDob
    rw [hd]
  · intro today updates hd
    unfold checkDob
    cases hv : dictGet updates "dob" with
    | none => rfl
    | some v =>
      cases v with
      | pstr s2 => exact absurd hv (hd s2)
      | pnull => rfl
      | pbool b => rfl
      | pint i => rfl
  · intro today store user_id updates current e h0 h hu hc
    unfold Myapp.update_user
    rw [if_neg (update_bounds_ok store user_id current h0 h), h, hu]
    simp only [Bool.false_eq_true, if_false, hc]
  · intro today store user_id updates current h0 h hu hc
    unfold Myapp.update_user
    rw [if_neg (update_bounds_ok store user_id current h0 h), h, hu]
    simp only [Bool.false_eq_true, if_false, hc]
  · intro current updates k hk
    exact dictGet_applyUpdates_notMem updates current k hk

/-- C6 (witness): the amended theorem applied concretely: a string dob that
fails to parse is rejected with the dob validation error. -/
theorem C6_witness :
    Myapp.update_user today0 [some alice.toRec] 0 [("dob", JPrim.pstr "bad")] =
      .error (.validation "Invalid dob format. Use YYYY-MM-DD.") :=
  C6_patch_validation.2.2.1 today0 [some alice.toRec] 0 [("dob", JPrim.pstr "bad")]
    alice.toRec (.validation "Invalid dob format. Use YYYY-MM-DD.")
    (by decide) (by decide) (by decide) (by decide)

/-- Helper: the success path of the in-memory update_user. -/
theorem update_user_ok (today : Date) (store : Store) (user_id : Int) (updates current : Rec)
    (h0 : 0 ≤ user_id) (h : store.get? user_id.toNat = some (some current))
    (hu : usernameCheckFails store user_id updates = false)
    (hc : update_field_checks today updates = none) :
    Myapp.update_user today store user_id updates =
      .ok (store.set user_id.toNat (some (applyUpdates current updates)),
           applyUpdates current updates) := by
  unfold Myapp.update_user
  rw [if_neg (update_bounds_ok store user_id current h0 h), h, hu]
  simp only [Bool.false_eq_true, if_false, hc]

/-- Helper: a key of allowed_fields is absent from an input whose keys are
all outside allowed_fields. -/
theorem dictGet_none_of_all_unknown (updates : Rec) (k : String)
    (hall : ∀ kv ∈ updates, allowed_fields.contains kv.1 = false)
    (hk : allowed_fields.contains k = true) : dictGet updates k = none := by
  cases hv : dictGet updates k with
  | none => rfl
  | some v =>
    have hm := dictGet_some_mem updates _ _ hv
    have := hall (k, v) hm
    rw [hk] at this
    cases this

/-- Helper: setting one slot leaves every other slot unchanged. -/
theorem list_get?_set_ne {α : Type} :
    ∀ (l : List α) (n j : Nat) (a : α), j ≠ n → (l.set n a).get? j = l.get? j
  | [], _, _, _, _ => rfl
  | x :: xs, 0, 0, a, h => absurd rfl h
  | x :: xs, 0, j+1, a, h => rfl
  | x :: xs, n+1, 0, a, h => rfl
  | x :: xs, n+1, j+1, a, h => by
    simp only [List.set]
    have : j ≠ n := fun he => h (by rw [he])
    simpa using list_get?_set_ne xs n j a this

set_option maxRecDepth 10000 in
/-- C7 (counterexample): in the DB-backed variant, patching an existing
record with exactly a new name succeeds and returns the renamed record, but
the stored state is completely unchanged (the row was modified while
detached from a closed session): the stored record's name is not changed,
refuting that such a patch changes the name field of the record. -/
theorem C7_counterexample :
    Db.update_user today0 dbState0 1 [("name", .pstr "X")] =
      .ok (some { aliceRow with name := .pstr "X" }, dbState0) ∧
    Db.tableGet dbState0.table 1 = some aliceRow ∧
    aliceRow.name = .pstr "Alice" := by
  refine ⟨by decide, by decide, by decide⟩

/-- C7 (amended): in the in-memory/file variant, patching an existing
record with exactly a name value changes only the name field, leaves every
other field and every other slot untouched, and inputs consisting only of
unrecognized keys are silently ignored (success, store unchanged); in the
DB-backed variant an unrecognized first key is likewise ignored without
error, but a name patch never reaches the stored table, whose rows stay
unchanged -- only the returned detached record carries the new name. -/
theorem C7_patch_frame :
    (∀ (today : Date) (store : Store) (user_id : Int) (current : Rec) (v : JPrim),
      0 ≤ user_id → store.get? user_id.toNat = some (some current) →
      Myapp.update_user today store user_id [("name", v)] =
        .ok (store.set user_id.toNat (some (dictSet current "name" v)),
             dictSet current "name" v) ∧
      dictGet (dictSet current "name" v) "name" = some v ∧
      (∀ k, k ≠ "name" → dictGet (dictSet current "name" v) k = dictGet current k) ∧
      (∀ j, j ≠ user_id.toNat →
        (store.set user_id.toNat (some (dictSet current "name" v))).get? j = store.get? j)) ∧
    (∀ (today : Date) (store : Store) (user_id : Int) (current updates : Rec),
      0 ≤ user_id → store.get? user_id.toNat = some (some current) →
      (∀ kv ∈ updates, allowed_fields.contains kv.1 = false) →
      Myapp.update_user today store user_id updates = .ok (store, current)) ∧
    (∀ (today : Date) (st : Db.DbState) (user_id : Int) (k : String) (v : JPrim)
       (rest : Rec) (row : Db.Row),
      Db.tableGet st.table user_id = some row →
      allowed_fields.contains k = false →
      usernameCheckFails st.mem user_id ((k, v) :: rest) = false →
      update_field_checks today ((k, v) :: rest) = none →
      Db.update_user today st user_id ((k, v) :: rest) =
        .ok (some row, { st with mem := Db.refreshMem st.table, file := save_users_to_file (Db.refreshMem st.table) })) ∧
    (∀ (today : Date) (st : Db.DbState) (user_id : Int) (v : JPrim)
       (row2 : Db.Row) (st2 : Db.DbState),
      Db.update_user today st user_id [("name", v)] = .ok (some row2, st2) →
      st2.table = st.table) := by
  refine ⟨?_, ?_, ?_, ?_⟩
  · intro today store user_id current v h0 h
    have hu : usernameCheckFails store user_id [("name", v)] = false := rfl
    have hc : update_field_checks today [("name", v)] = none := rfl
    have happ : applyUpdates current [("name", v)] = dictSet current "name" v := rfl
    refine ⟨?_, dictGet_dictSet_self current "name" v, ?_, ?_⟩
    · have := update_user_ok today store user_id [("name", v)] current h0 h hu hc
      rw [happ] at this
      exact this
    · intro k hk
      exact dictGet_dictSet_ne current "name" k v hk
    · intro j hj
      exact list_get?_set_ne store user_id.toNat j _ hj
  · intro today store user_id current updates h0 h hall
    have hun : dictGet updates "username" = none :=
      dictGet_none_of_all_unknown updates "username" hall (by decide)
    have hu : usernameCheckFails store user_id updates = false := by
      unfold usernameCheckFails
      rw [hun]
    have hp : dictGet updates "phone_number" = none :=
      dictGet_none_of_all_unknown updates "phone_number" hall (by decide)
    have hag : dictGet updates "age" = none :=
      dictGet_none_of_all_unknown updates "age" hall (by decide)
    have hd : dictGet updates "dob" = none :=
      dictGet_none_of_all_unknown updates "dob" hall (by decide)
    have hem : dictGet updates "email" = none :=
      dictGet_none_of_all_unknown updates "email" hall (by decide)
    have hc : update_field_checks today updates = none := by
      unfold update_field_checks checkPhone checkAge checkDob checkEmail
      rw [hp, hag, hd, hem]
      rfl
    have := update_user_ok today store user_id updates current h0 h hu hc
    rw [applyUpdates_all_unknown updates current hall] at this
    rw [list_set_self store user_id.toNat (some current)
      (by rw [← List.get?_eq_getElem?]; exact h)] at this
    exact this
  · intro today st user_id k v rest row htg hk hu hc
    unfold Db.update_user
    rw [htg, hu]
    simp only [Bool.false_eq_true, if_false, hc, hk]
  · intro today st user_id v row2 st2 h
    unfold Db.update_user at h
    split at h
    · cases h
    · split at h
      · cases h
      · split at h
        · cases h
        · cases h
          rfl

/-- C7 (witness): the amended theorem's in-memory name-patch clause applied
to the concrete one-record store. -/
theorem C7_witness :
    Myapp.update_user today0 [some alice.toRec] 0 [("name", JPrim.pstr "X")] =
      .ok ([some alice.toRec].set (Int.toNat 0) (some (dictSet alice.toRec "name" (JPrim.pstr "X"))),
           dictSet alice.toRec "name" (JPrim.pstr "X")) ∧
    dictGet (dictSet alice.toRec "name" (JPrim.pstr "X")) "name" = some (JPrim.pstr "X") ∧
    (∀ k, k ≠ "name" →
      dictGet (dictSet alice.toRec "name" (JPrim.pstr "X")) k = dictGet alice.toRec k) ∧
    (∀ j, j ≠ Int.toNat 0 →
      ([some alice.toRec].set (Int.toNat 0)
        (some (dictSet alice.toRec "name" (JPrim.pstr "X")))).get? j = [some alice.toRec].get? j) :=
  C7_patch_frame.1 today0 [some alice.toRec] 0 alice.toRec (JPrim.pstr "X")
    (by decide) (by decide)

set_option maxRecDepth 10000 in
/-- C2 (counterexample): in the DB-backed variant a patch of an existing
record succeeds and returns the record with the new field value, yet the
resulting state equals the prior state exactly: the table row, the
in-memory slice and the log file all still hold the old value, so the
three representations do not contain the patched field value after a
successful patch. -/
theorem C2_counterexample :
    Db.update_user today0 dbState0 1 [("name", .pstr "Bob")] =
      .ok (some { aliceRow with name := .pstr "Bob" }, dbState0) ∧
    Db.tableGet dbState0.table 1 = some aliceRow ∧
    aliceRow.name = .pstr "Alice" ∧
    dbState0.mem = Db.refreshMem dbState0.table ∧
    dbState0.file = save_users_to_file dbState0.mem := by
  refine ⟨by decide, by decide, by decide, by decide, by decide⟩

/-- C2 (amended): every mutating operation of the DB-backed variant that
returns success leaves the in-memory slice equal to the table contents and
the log file equal to the serialized slice, and a failed mutation returns
an error without producing a new state; but a successful patch never
changes the table (the row is modified while detached from a closed
session, and only the first update entry is even examined), so the patched
values are reflected only in the returned record, not in the table, the
slice or the file. -/
theorem C2_mirror_consistency :
    (∀ (today : Date) (st : Db.DbState) (u : User) (st2 : Db.DbState) (r : User),
      Db.create_user today st u = .ok (st2, r) →
      Db.mirrors_consistent st2 ∧ st2.table = st.table ++ [(st.nextId, Db.userToRow u)]) ∧
    (∀ (st : Db.DbState) (user_id : Int) (st2 : Db.DbState),
      Db.delete_user st user_id = .ok st2 →
      Db.mirrors_consistent st2 ∧ st2.table = st.table.filter (fun p => p.1 != user_id)) ∧
    (∀ (today : Date) (st : Db.DbState) (user_id : Int) (updates : Rec)
       (row2 : Db.Row) (st2 : Db.DbState),
      Db.update_user today st user_id updates = .ok (some row2, st2) →
      Db.mirrors_consistent st2 ∧ st2.table = st.table) := by
  refine ⟨?_, ?_, ?_⟩
  · intro today st u st2 r h
    unfold Db.create_user at h
    split at h
    · cases h
    · split at h
      · cases h
      · dsimp only at h
        split at h
        · cases h
        · cases h
          exact ⟨⟨rfl, rfl⟩, rfl⟩
  · intro st user_id st2 h
    unfold Db.delete_user at h
    split at h
    · cases h
    · cases h
      exact ⟨⟨rfl, rfl⟩, rfl⟩
  · intro today st user_id updates row2 st2 h
    unfold Db.update_user at h
    split at h
    · cases h
    · split at h
      · cases h
      · split at h
        · cases h
        · split at h
          · simp at h
          · cases h
            exact ⟨⟨rfl, rfl⟩, rfl⟩

set_option maxRecDepth 10000 in
/-- C2 (witness): the amended theorem's patch clause applied concretely. -/
theorem C2_witness :
    Db.mirrors_consistent dbState0 ∧ dbState0.table = dbState0.table :=
  C2_mirror_consistency.2.2 today0 dbState0 1 [("address", JPrim.pstr "Z")]
    { aliceRow with address := JPrim.pstr "Z" } dbState0 (by decide)

/-! Lemmas for the JSON round trip: numbers. -/

theorem toNat_ofNat_valid (n : Nat) (h : n < 55296) : (Char.ofNat n).toNat = n := by
  unfold Char.ofNat
  rw [dif_pos (Or.inl h)]
  rfl

theorem digitChar_toNat (d : Nat) (h : d < 10) : (digitChar d).toNat = 48 + d :=
  toNat_ofNat_valid (48 + d) (by omega)

theorem isDigitChar_digitChar (d : Nat) (h : d < 10) : isDigitChar (digitChar d) = true := by
  simp [isDigitChar, digitChar_toNat d h]
  omega

theorem digitChar_ne_zero_char (d : Nat) (h0 : 0 < d) (h : d < 10) : digitChar d ≠ '0' := by
  intro he
  have := digitChar_toNat d h
  rw [he] at this
  simp at this
  omega

theorem hexVal_hexDigit (k : Nat) (h : k < 16) : hexVal (hexDigit k) = some k := by
  interval_cases k <;> decide

theorem natDigitsGo_ne_nil (fuel n : Nat) (h : n < fuel) : natDigitsGo fuel n ≠ [] := by
  cases fuel with
  | zero => omega
  | succ f =>
    unfold natDigitsGo
    by_cases h10 : n < 10 <;> simp [h10]

theorem natDigitsGo_all_digits (fuel : Nat) :
    ∀ n, n < fuel → ∀ c ∈ natDigitsGo fuel n, isDigitChar c = true := by
  induction fuel with
  | zero => intro n h; omega
  | succ f ih =>
    intro n h c hc
    unfold natDigitsGo at hc
    by_cases h10 : n < 10
    · simp [h10] at hc
      rw [hc]
      exact isDigitChar_digitChar n h10
    · simp [h10] at hc
      rcases hc with hc | hc
      · rw [hc]
        exact isDigitChar_digitChar (n % 10) (Nat.mod_lt n (by omega))
      · exact ih (n / 10) (by omega) c hc

theorem digitsToNat_append_one (xs : List Char) (c : Char) :
    digitsToNat (xs ++ [c]) = digitsToNat xs * 10 + (c.toNat - 48) := by
  simp [digitsToNat, List.foldl_append]

theorem digitsToNat_natDigitsGo_reverse (fuel : Nat) :
    ∀ n, n < fuel → digitsToNat (natDigitsGo fuel n).reverse = n := by
  induction fuel with
  | zero => intro n h; omega
  | succ f ih =>
    intro n h
    unfold natDigitsGo
    by_cases h10 : n < 10
    · simp [h10, digitsToNat, digitChar_toNat n h10]
    · simp only [h10, if_false, List.reverse_cons]
      rw [digitsToNat_append_one, ih (n / 10) (by omega),
        digitChar_toNat (n % 10) (Nat.mod_lt n (by omega))]
      omega

theorem digitsToNat_natDump (n : Nat) : digitsToNat (natDump n) = n :=
  digitsToNat_natDigitsGo_reverse (n + 1) n (Nat.lt_succ_self n)

theorem natDump_ne_nil (n : Nat) : natDump n ≠ [] := by
  unfold natDump
  intro h
  exact natDigitsGo_ne_nil (n + 1) n (Nat.lt_succ_self n) (by simpa using h)

theorem natDump_all_digits (n : Nat) : ∀ c ∈ natDump n, isDigitChar c = true := by
  intro c hc
  exact natDigitsGo_all_digits (n + 1) n (Nat.lt_succ_self n) c (by simpa [natDump] using hc)

theorem natDigitsGo_getLast (fuel : Nat) :
    ∀ n, n < fuel → 0 < n → ∀ c, (natDigitsGo fuel n).getLast? = some c → c ≠ '0' := by
  induction fuel with
  | zero => intro n h; omega
  | succ f ih =>
    intro n h h0 c hc
    unfold natDigitsGo at hc
    by_cases h10 : n < 10
    · simp [h10] at hc
      rw [← hc]
      exact digitChar_ne_zero_char n h0 h10
    · simp only [h10, if_false] at hc
      rw [List.getLast?_cons] at hc
      cases hg : (natDigitsGo f (n / 10)).getLast? with
      | none =>
        exact absurd (List.getLast?_eq_none_iff.mp hg) (natDigitsGo_ne_nil f (n / 10) (by omega))
      | some c2 =>
        rw [hg] at hc
        simp at hc
        rw [← hc]
        exact ih (n / 10) (by omega) (by omega) c2 hg

theorem natDump_head_ne_zero (n : Nat) (h0 : 0 < n) :
    ∀ c, (natDump n).head? = some c → c ≠ '0' := by
  intro c hc
  rw [natDump, List.head?_reverse] at hc
  exact natDigitsGo_getLast (n + 1) n (Nat.lt_succ_self n) h0 c hc

theorem takeWhile_all_append (p : Char → Bool) (xs : List Char) (rest : List Char)
    (hall : ∀ c ∈ xs, p c = true) (hrest : ∀ c, rest.head? = some c → p c = false) :
    (xs ++ rest).takeWhile p = xs ∧ (xs ++ rest).dropWhile p = rest := by
  induction xs with
  | nil =>
    simp only [List.nil_append]
    cases rest with
    | nil => simp
    | cons r rs =>
      have := hrest r rfl
      simp [List.takeWhile, List.dropWhile, this]
  | cons x xs2 ih =>
    have hx := hall x (List.mem_cons_self _ _)
    have := ih (fun c hc => hall c (List.mem_cons_of_mem _ hc))
    simp [List.takeWhile, List.dropWhile, hx, this.1, this.2]

theorem parseNatTok_natDump (n : Nat) (rest : List Char)
    (hrest : ∀ c, rest.head? = some c → isDigitChar c = false) :
    parseNatTok (natDump n ++ rest) = some (n, rest) := by
  have htd := takeWhile_all_append isDigitChar (natDump n) rest (natDump_all_digits n) hrest
  unfold parseNatTok
  rw [htd.1, htd.2]
  have hne : (natDump n).isEmpty = false := by
    cases hd : natDump n with
    | nil => exact absurd hd (natDump_ne_nil n)
    | cons c cs => rfl
  have hnolead : ¬(2 ≤ (natDump n).length ∧ (natDump n).head? = some '0') := by
    rcases Nat.eq_zero_or_pos n with h0 | h0
    · subst h0
      intro hcon
      have : natDump 0 = ['0'] := rfl
      rw [this] at hcon
      simp at hcon
    · intro hcon
      cases hh : (natDump n).head? with
      | none => rw [hh] at hcon; simp at hcon
      | some c =>
        have := natDump_head_ne_zero n h0 c hh
        rw [hh] at hcon
        exact this (by injection hcon.2)
  simp only [hne, Bool.false_eq_true, if_false, if_neg hnolead, digitsToNat_natDump]

theorem natDump_cons (n : Nat) :
    ∃ d ds, natDump n = d :: ds ∧ isDigitChar d = true := by
  cases hd : natDump n with
  | nil => exact absurd hd (natDump_ne_nil n)
  | cons d ds =>
    refine ⟨d, ds, rfl, ?_⟩
    exact natDump_all_digits n d (by rw [hd]; exact List.mem_cons_self _ _)

theorem parseIntTok_intDump (i : Int) (rest : List Char)
    (hrest : ∀ c, rest.head? = some c → isDigitChar c = false) :
    parseIntTok (intDump i ++ rest) = some (i, rest) := by
  obtain ⟨d, ds, hd, hdig⟩ := natDump_cons i.toNat
  by_cases hneg : i < 0
  · have : intDump i = '-' :: natDump (-i).toNat := by simp [intDump, hneg]
    rw [this]
    obtain ⟨d2, ds2, hd2, hdig2⟩ := natDump_cons (-i).toNat
    simp only [List.cons_append, parseIntTok, if_pos rfl]
    rw [parseNatTok_natDump (-i).toNat rest hrest]
    simp [Int.toNat_of_nonneg (by omega : (0:Int) ≤ -i)]
  · have hie : intDump i = natDump i.toNat := by simp [intDump, hneg]
    rw [hie, hd]
    have hdne : ¬d = '-' := by
      intro he
      rw [he] at hdig
      simp [isDigitChar] at hdig
    simp only [List.cons_append, parseIntTok, if_neg hdne]
    rw [← List.cons_append, ← hd, parseNatTok_natDump i.toNat rest hrest]
    simp [Int.toNat_of_nonneg (by omega : (0:Int) ≤ i)]

/-! Lemmas for the JSON round trip: string escapes. -/

theorem parseEscape_u (r : List Char) : parseEscape ('u' :: r) = parseEscapeU r := rfl

theorem parseEscapeU_single (n : Nat) (tail : List Char)
    (h : n < 55296 ∨ (57343 < n ∧ n < 65536)) :
    parseEscapeU (hex4 n ++ tail) = some (Char.ofNat n, tail) := by
  have hn : n < 65536 := by omega
  have h1 := hexVal_hexDigit (n / 4096 % 16) (by omega)
  have h2 := hexVal_hexDigit (n / 256 % 16) (by omega)
  have h3 := hexVal_hexDigit (n / 16 % 16) (by omega)
  have h4 := hexVal_hexDigit (n % 16) (by omega)
  have hre : n / 4096 % 16 * 4096 + n / 256 % 16 * 256 + n / 16 % 16 * 16 + n % 16 = n := by
    omega
  simp only [hex4, List.cons_append, List.nil_append]
  unfold parseEscapeU
  simp only [h1, h2, h3, h4, hre]
  rw [if_neg (by omega), if_neg (by omega)]

theorem parseEscapeU_pair (hi lo : Nat) (tail : List Char)
    (hh1 : 55296 ≤ hi) (hh2 : hi ≤ 56319) (hl1 : 56320 ≤ lo) (hl2 : lo ≤ 57343) :
    parseEscapeU (hex4 hi ++ ('\\' :: 'u' :: (hex4 lo ++ tail))) =
      some (Char.ofNat (65536 + (hi - 55296) * 1024 + (lo - 56320)), tail) := by
  have h1 := hexVal_hexDigit (hi / 4096 % 16) (by omega)
  have h2 := hexVal_hexDigit (hi / 256 % 16) (by omega)
  have h3 := hexVal_hexDigit (hi / 16 % 16) (by omega)
  have h4 := hexVal_hexDigit (hi % 16) (by omega)
  have g1 := hexVal_hexDigit (lo / 4096 % 16) (by omega)
  have g2 := hexVal_hexDigit (lo / 256 % 16) (by omega)
  have g3 := hexVal_hexDigit (lo / 16 % 16) (by omega)
  have g4 := hexVal_hexDigit (lo % 16) (by omega)
  have hreh : hi / 4096 % 16 * 4096 + hi / 256 % 16 * 256 + hi / 16 % 16 * 16 + hi % 16 = hi := by
    omega
  have hrel : lo / 4096 % 16 * 4096 + lo / 256 % 16 * 256 + lo / 16 % 16 * 16 + lo % 16 = lo := by
    omega
  simp only [hex4, List.cons_append, List.nil_append]
  unfold parseEscapeU
  simp only [h1, h2, h3, h4, hreh]
  rw [if_pos (by omega : 55296 ≤ hi ∧ hi ≤ 56319)]
  rw [if_pos (⟨trivial, trivial⟩ : True ∧ True)]
  simp only [g1, g2, g3, g4, hrel]
  rw [if_pos (by omega : 56320 ≤ lo ∧ lo ≤ 57343)]

theorem escapeChar_cases (c : Char) :
    (escapeChar c = [c] ∧ c ≠ '"' ∧ c ≠ '\\' ∧ 32 ≤ c.toNat) ∨
    (∃ suffix, escapeChar c = '\\' :: suffix ∧
      ∀ tail, parseEscape (suffix ++ tail) = some (c, tail)) := by
  have hvalid : c.toNat < 55296 ∨ (57343 < c.toNat ∧ c.toNat < 1114112) := c.valid
  by_cases hq : c = '"'
  · right
    refine ⟨['"'], by simp [escapeChar, hq], fun tail => by rw [hq]; rfl⟩
  by_cases hb : c = '\\'
  · right
    refine ⟨['\\'], by simp [escapeChar, hq, hb], fun tail => by rw [hb]; rfl⟩
  by_cases hn : c = '\n'
  · right
    refine ⟨['n'], by simp [escapeChar, hq, hb, hn], fun tail => by rw [hn]; rfl⟩
  by_cases ht : c = '\t'
  · right
    refine ⟨['t'], by simp [escapeChar, hq, hb, hn, ht], fun tail => by rw [ht]; rfl⟩
  by_cases hr : c = '\r'
  · right
    refine ⟨['r'], by simp [escapeChar, hq, hb, hn, ht, hr], fun tail => by rw [hr]; rfl⟩
  by_cases h8 : c.toNat = 8
  · right
    refine ⟨['b'], by simp [escapeChar, hq, hb, hn, ht, hr, h8], fun tail => ?_⟩
    have hc8 : Char.ofNat 8 = c := by rw [← h8]; exact Char.ofNat_toNat c
    rw [← hc8]
    rfl
  by_cases h12 : c.toNat = 12
  · right
    refine ⟨['f'], by simp [escapeChar, hq, hb, hn, ht, hr, h8, h12], fun tail => ?_⟩
    have hc12 : Char.ofNat 12 = c := by rw [← h12]; exact Char.ofNat_toNat c
    rw [← hc12]
    rfl
  by_cases h32 : c.toNat < 32
  · right
    refine ⟨'u' :: hex4 c.toNat, by simp [escapeChar, hq, hb, hn, ht, hr, h8, h12, h32],
      fun tail => ?_⟩
    rw [List.cons_append, parseEscape_u, parseEscapeU_single c.toNat tail (Or.inl (by omega)),
      Char.ofNat_toNat]
  by_cases h126 : c.toNat ≤ 126
  · left
    exact ⟨by simp [escapeChar, hq, hb, hn, ht, hr, h8, h12, h32, h126], hq, hb, by omega⟩
  by_cases hbmp : c.toNat < 65536
  · right
    have hrange : c.toNat < 55296 ∨ (57343 < c.toNat ∧ c.toNat < 65536) := by omega
    refine ⟨'u' :: hex4 c.toNat,
      by simp [escapeChar, hq, hb, hn, ht, hr, h8, h12, h32, h126, hbmp], fun tail => ?_⟩
    rw [List.cons_append, parseEscape_u, parseEscapeU_single c.toNat tail hrange,
      Char.ofNat_toNat]
  · right
    refine ⟨'u' :: hex4 (55296 + (c.toNat - 65536) / 1024) ++
        '\\' :: 'u' :: hex4 (56320 + (c.toNat - 65536) % 1024),
      by simp [escapeChar, hq, hb, hn, ht, hr, h8, h12, h32, h126, hbmp], fun tail => ?_⟩
    have hv : c.toNat - 65536 < 1048576 := by omega
    simp only [List.cons_append, List.append_assoc]
    rw [parseEscape_u]
    rw [parseEscapeU_pair (55296 + (c.toNat - 65536) / 1024) (56320 + (c.toNat - 65536) % 1024)
      tail (by omega) (by omega) (by omega) (by omega)]
    have harith : 65536 + (55296 + (c.toNat - 65536) / 1024 - 55296) * 1024 +
        (56320 + (c.toNat - 65536) % 1024 - 56320) = c.toNat := by omega
    rw [harith, Char.ofNat_toNat]

theorem parseStringGo_escape (s : List Char) : ∀ (fuel : Nat) (rest : List Char),
    (escListChars s).length + 1 ≤ fuel →
    parseStringGo fuel (escListChars s ++ '"' :: rest) = some (s, rest) := by
  induction s with
  | nil =>
    intro fuel rest hf
    cases fuel with
    | zero => omega
    | succ f =>
      simp only [escListChars, List.nil_append]
      unfold parseStringGo
      dsimp only
      rw [if_pos rfl]
  | cons c cs ih =>
    intro fuel rest hf
    rcases escapeChar_cases c with ⟨hesc, hq, hb, h32⟩ | ⟨suffix, hesc, hparse⟩
    · have hlen : (escListChars (c :: cs)).length = 1 + (escListChars cs).length := by
        simp [escListChars, hesc]
        omega
      cases fuel with
      | zero => omega
      | succ f =>
        simp only [escListChars, hesc, List.cons_append, List.nil_append, List.append_assoc]
        unfold parseStringGo
        dsimp only
        rw [if_neg hq, if_neg hb, if_neg (by omega : ¬c.toNat < 32)]
        rw [ih f rest (by rw [hlen] at hf; omega)]
    · cases fuel with
      | zero =>
        exfalso
        omega
      | succ f =>
        have hlen : (escListChars (c :: cs)).length =
            suffix.length + 1 + (escListChars cs).length := by
          simp [escListChars, hesc]
          omega
        simp only [escListChars, hesc, List.cons_append, List.append_assoc]
        unfold parseStringGo
        dsimp only
        rw [if_neg (by decide : ¬('\\' : Char) = '"'), if_pos rfl]
        rw [hparse (escListChars cs ++ '"' :: rest)]
        dsimp only
        rw [ih f rest (by rw [hlen] at hf; omega)]

theorem cons_take_ne (c c2 : Char) (l l2 : List Char) (n : Nat) (h : c ≠ c2) :
    ¬((c :: l).take (n+1) = c2 :: l2) := by
  rw [List.take_succ_cons]
  intro hc
  injection hc with h1 _
  exact h h1

theorem intDump_head_cases (i : Int) :
    ∃ c0 tl, intDump i = c0 :: tl ∧ c0 ≠ '"' ∧ c0 ≠ 't' ∧ c0 ≠ 'f' ∧ c0 ≠ 'n' := by
  by_cases hneg : i < 0
  · refine ⟨'-', natDump (-i).toNat, by simp [intDump, hneg], by decide, by decide, by decide,
      by decide⟩
  · obtain ⟨d, ds, hd, hdig⟩ := natDump_cons i.toNat
    refine ⟨d, ds, by simp [intDump, hneg, hd], ?_, ?_, ?_, ?_⟩ <;>
      · intro he
        rw [he] at hdig
        exact absurd hdig (by decide)

theorem parseValueTok_dumpPrim (v : JPrim) (rest : List Char)
    (hrest : ∀ c, rest.head? = some c → isDigitChar c = false) :
    parseValueTok (dumpPrim v ++ rest) = some (v, rest) := by
  cases v with
  | pstr s =>
    simp only [dumpPrim, List.cons_append, List.append_assoc, List.nil_append]
    unfold parseValueTok
    dsimp only
    rw [if_pos rfl]
    rw [parseStringGo_escape s.data ((escListChars s.data ++ '"' :: rest).length + 1) rest
      (by simp)]
  | pnull =>
    simp only [dumpPrim, List.cons_append, List.nil_append]
    unfold parseValueTok
    dsimp only
    rw [if_neg (by decide : ¬('n' : Char) = '"')]
    simp
  | pbool b =>
    cases b with
    | true =>
      simp only [dumpPrim, List.cons_append, List.nil_append]
      unfold parseValueTok
      dsimp only
      rw [if_neg (by decide : ¬('t' : Char) = '"')]
      simp
    | false =>
      simp only [dumpPrim, List.cons_append, List.nil_append]
      unfold parseValueTok
      dsimp only
      rw [if_neg (by decide : ¬('f' : Char) = '"')]
      simp
  | pint i =>
    obtain ⟨c0, tl, hshape, hnq, hnt, hnf, hnn⟩ := intDump_head_cases i
    have hfull : dumpPrim (.pint i) ++ rest = c0 :: (tl ++ rest) := by
      simp [dumpPrim, hshape]
    rw [hfull]
    unfold parseValueTok
    dsimp only
    rw [if_neg hnq,
      if_neg (cons_take_ne c0 't' _ _ 3 hnt),
      if_neg (cons_take_ne c0 'f' _ _ 4 hnf),
      if_neg (cons_take_ne c0 'n' _ _ 3 hnn)]
    rw [show (c0 :: (tl ++ rest) : List Char) = intDump i ++ rest from by rw [hshape]; rfl]
    rw [parseIntTok_intDump i rest hrest]

theorem skipWs_cons_not (c : Char) (cs : List Char) (h : isJsonWs c = false) :
    skipWs (c :: cs) = c :: cs := by
  simp [skipWs, List.dropWhile_cons, h]

theorem skipWs_cons_ws (c : Char) (cs : List Char) (h : isJsonWs c = true) :
    skipWs (c :: cs) = skipWs cs := by
  simp [skipWs, List.dropWhile_cons, h]

theorem digit_not_ws (c : Char) (h : isDigitChar c = true) : isJsonWs c = false := by
  have h1 : c ≠ ' ' := fun he => by rw [he] at h; exact absurd h (by decide)
  have h2 : c ≠ '\t' := fun he => by rw [he] at h; exact absurd h (by decide)
  have h3 : c ≠ '\n' := fun he => by rw [he] at h; exact absurd h (by decide)
  have h4 : c ≠ '\r' := fun he => by rw [he] at h; exact absurd h (by decide)
  simp [isJsonWs, h1, h2, h3, h4]

theorem dumpPrim_cons (v : JPrim) :
    ∃ c0 tl, dumpPrim v = c0 :: tl ∧ isJsonWs c0 = false := by
  cases v with
  | pnull => exact ⟨'n', _, rfl, by decide⟩
  | pbool b =>
    cases b with
    | true => exact ⟨'t', _, rfl, by decide⟩
    | false => exact ⟨'f', _, rfl, by decide⟩
  | pstr s => exact ⟨'"', _, rfl, by decide⟩
  | pint i =>
    by_cases hneg : i < 0
    · exact ⟨'-', natDump (-i).toNat, by simp [dumpPrim, intDump, hneg], by decide⟩
    · obtain ⟨d, ds, hd, hdig⟩ := natDump_cons i.toNat
      exact ⟨d, ds, by simp [dumpPrim, intDump, hneg, hd], digit_not_ws d hdig⟩

theorem parseMembersAux_ws (fuel : Nat) (c : Char) (cs : List Char) (h : isJsonWs c = true) :
    parseMembersAux fuel (c :: cs) = parseMembersAux fuel cs := by
  cases fuel with
  | zero => rfl
  | succ f =>
    unfold parseMembersAux
    rw [skipWs_cons_ws c cs h]

theorem dumpMembers_length (r : Rec) : r.length ≤ (dumpMembers r).length := by
  induction r with
  | nil => simp [dumpMembers]
  | cons kv rtl ih =>
    cases rtl with
    | nil => simp [dumpMembers, dumpKV]
    | cons kv2 rtl2 =>
      obtain ⟨k, v⟩ := kv
      simp only [dumpMembers, dumpKV, List.length_cons, List.length_append]
      simp at ih ⊢
      omega

theorem skipWs_dumpPrim (v : JPrim) (X : List Char) :
    skipWs (dumpPrim v ++ X) = dumpPrim v ++ X := by
  obtain ⟨c0, tl, hp, hw⟩ := dumpPrim_cons v
  rw [hp, List.cons_append, skipWs_cons_not _ _ hw]

theorem parseMembersAux_dump (r : Rec) : ∀ (fuel : Nat) (rest : List Char), r ≠ [] →
    r.length ≤ fuel →
    parseMembersAux fuel (dumpMembers r ++ rbrace :: rest) = some (r, rest) := by
  induction r with
  | nil => intro fuel rest h; exact absurd rfl h
  | cons kv rtl ih =>
    intro fuel rest _ hf
    obtain ⟨k, v⟩ := kv
    cases fuel with
    | zero => simp at hf
    | succ f =>
      cases rtl with
      | nil =>
        simp only [dumpMembers, dumpKV, List.cons_append, List.append_assoc, List.nil_append]
        unfold parseMembersAux
        rw [skipWs_cons_not '"' _ (by decide)]
        dsimp only
        rw [if_pos rfl]
        rw [parseStringGo_escape k.data _ _ (by simp)]
        dsimp only
        rw [skipWs_cons_not ':' _ (by decide)]
        dsimp only
        rw [if_pos rfl]
        rw [skipWs_cons_ws ' ' _ (by decide), skipWs_dumpPrim]
        rw [parseValueTok_dumpPrim v (rbrace :: rest)
          (fun c hc => by simp at hc; rw [← hc]; decide)]
        dsimp only
        rw [skipWs_cons_not rbrace _ (by decide)]
        dsimp only
        rw [if_neg (by decide : ¬rbrace = ','), if_pos rfl]
      | cons kv2 rtl2 =>
        simp only [dumpMembers, dumpKV, List.cons_append, List.append_assoc, List.nil_append]
        unfold parseMembersAux
        rw [skipWs_cons_not '"' _ (by decide)]
        dsimp only
        rw [if_pos rfl]
        rw [parseStringGo_escape k.data _ _ (by simp)]
        dsimp only
        rw [skipWs_cons_not ':' _ (by decide)]
        dsimp only
        rw [if_pos rfl]
        rw [skipWs_cons_ws ' ' _ (by decide), skipWs_dumpPrim]
        rw [parseValueTok_dumpPrim v (',' :: ' ' :: (dumpMembers (kv2 :: rtl2) ++ rbrace :: rest))
          (fun c hc => by simp at hc; rw [← hc]; decide)]
        dsimp only
        rw [skipWs_cons_not ',' _ (by decide)]
        dsimp only
        rw [if_pos rfl]
        rw [parseMembersAux_ws f ' ' _ (by decide)]
        rw [ih f rest (by simp) (by simp at hf ⊢; omega)]

theorem dumpMembers_cons_head (kv : String × JPrim) (rtl : Rec) :
    ∃ tl, dumpMembers (kv :: rtl) = '"' :: tl := by
  obtain ⟨k, v⟩ := kv
  cases rtl with
  | nil => exact ⟨_, rfl⟩
  | cons kv2 rtl2 => exact ⟨_, rfl⟩

theorem dictSet_notMem (d : Rec) (k : String) (v : JPrim)
    (h : k ∉ d.map Prod.fst) : dictSet d k v = d ++ [(k, v)] := by
  induction d with
  | nil => rfl
  | cons kv2 rest ih =>
    obtain ⟨k2, v2⟩ := kv2
    simp only [List.map_cons, List.mem_cons, not_or] at h
    unfold dictSet
    rw [if_neg (fun he => h.1 (by rw [he]))]
    rw [ih h.2]
    rfl

theorem foldl_dictSet_nodup (r : Rec) : ∀ acc : Rec,
    (r.map Prod.fst).Nodup → (∀ k ∈ r.map Prod.fst, k ∉ acc.map Prod.fst) →
    r.foldl (fun d kv => dictSet d kv.1 kv.2) acc = acc ++ r := by
  induction r with
  | nil => intro acc _ _; simp
  | cons kv rtl ih =>
    intro acc hnd hdisj
    obtain ⟨k, v⟩ := kv
    simp only [List.foldl_cons]
    rw [dictSet_notMem acc k v (hdisj k (by simp))]
    simp only [List.map_cons, List.nodup_cons] at hnd
    rw [ih (acc ++ [(k, v)]) hnd.2 ?_]
    · simp
    · intro k2 hk2
      simp only [List.map_append, List.mem_append] at *
      intro hcon
      rcases hcon with hcon | hcon
      · exact hdisj k2 (by simp [hk2]) hcon
      · simp at hcon
        rw [hcon] at hk2
        exact hnd.1 hk2

theorem pyStrip_json_dumps (r : Rec) : pyStrip (json_dumps r) = json_dumps r := by
  show String.mk (pyStripList (json_dumps r).data) = json_dumps r
  have hdata : (json_dumps r).data = lbrace :: (dumpMembers r ++ [rbrace]) := by
    simp [json_dumps]
  rw [hdata]
  unfold pyStripList
  rw [List.dropWhile_cons, if_neg (by decide : ¬isPyWs lbrace = true)]
  rw [show (lbrace :: (dumpMembers r ++ [rbrace])).reverse =
    rbrace :: ((dumpMembers r).reverse ++ [lbrace]) from by simp]
  rw [List.dropWhile_cons, if_neg (by decide : ¬isPyWs rbrace = true)]
  rw [show (rbrace :: ((dumpMembers r).reverse ++ [lbrace])).reverse =
    lbrace :: (dumpMembers r ++ [rbrace]) from by simp]
  simp [json_dumps]

theorem json_loads_dumps (r : Rec) (h : (r.map Prod.fst).Nodup) :
    json_loads (json_dumps r) = some r := by
  cases r with
  | nil => rfl
  | cons kv rtl =>
    obtain ⟨tl, htl⟩ := dumpMembers_cons_head kv rtl
    have hshape : dumpMembers (kv :: rtl) ++ [rbrace] = '"' :: (tl ++ [rbrace]) := by
      rw [htl]
      rfl
    have hm := parseMembersAux_dump (kv :: rtl)
      ((dumpMembers (kv :: rtl) ++ [rbrace]).length + 1) [] (by simp)
      (by
        have := dumpMembers_length (kv :: rtl)
        simp at this ⊢
        omega)
    unfold json_loads
    have hdata : (json_dumps (kv :: rtl)).data = lbrace :: (dumpMembers (kv :: rtl) ++ [rbrace]) := by
      simp [json_dumps]
    rw [hdata]
    rw [skipWs_cons_not lbrace _ (by decide)]
    dsimp only
    rw [if_pos rfl]
    rw [hshape] at hm ⊢
    rw [skipWs_cons_not '"' _ (by decide)]
    dsimp only
    rw [if_neg (by decide : ¬('"' : Char) = rbrace)]
    rw [hm]
    simp [foldl_dictSet_nodup (kv :: rtl) [] h (by simp), show skipWs [] = [] from rfl]

theorem json_loads_strip_dumps (r : Rec) (h : (r.map Prod.fst).Nodup) :
    json_loads (pyStrip (json_dumps r)) = some r := by
  rw [pyStrip_json_dumps, json_loads_dumps r h]

theorem loadLoop_map_dumps (rs : List Rec) : ∀ acc : List Rec,
    (∀ r ∈ rs, (r.map Prod.fst).Nodup) →
    loadLoop acc (rs.map json_dumps) = acc ++ rs := by
  induction rs with
  | nil => intro acc _; simp [loadLoop]
  | cons r rs2 ih =>
    intro acc hnd
    simp only [List.map_cons, loadLoop]
    rw [json_loads_strip_dumps r (hnd r (by simp))]
    dsimp only
    rw [ih (acc ++ [r]) (fun r2 h2 => hnd r2 (by simp [h2]))]
    simp

theorem loadLoop_append_stop (pre : List String) : ∀ (acc : List Rec) (bad : String)
    (rest : List String),
    (∀ l ∈ pre, (json_loads (pyStrip l)).isSome = true) →
    json_loads (pyStrip bad) = none →
    loadLoop acc (pre ++ bad :: rest) = loadLoop acc pre := by
  induction pre with
  | nil =>
    intro acc bad rest _ hbad
    simp only [List.nil_append, loadLoop, hbad]
  | cons l pre2 ih =>
    intro acc bad rest hpre hbad
    have hl := hpre l (by simp)
    obtain ⟨r, hr⟩ := Option.isSome_iff_exists.mp hl
    simp only [List.cons_append, loadLoop, hr]
    exact ih (acc ++ [r]) bad rest (fun l2 h2 => hpre l2 (by simp [h2])) hbad

set_option maxRecDepth 10000 in
/-- C4 (counterexample): loading a file whose second line is malformed
keeps the record from the first line and discards the third: the result is
neither the empty store nor the per-line-tolerant store with both good
records. -/
theorem C4_counterexample :
    load_users_from_file (some [goodLineA, badLine, goodLineB]) = [[("name", .pstr "A")]] ∧
    load_users_from_file (some [goodLineA, badLine, goodLineB]) ≠ [] ∧
    load_users_from_file (some [goodLineA, badLine, goodLineB]) ≠
      [[("name", .pstr "A")], [("name", .pstr "B")]] := by
  refine ⟨by decide, by decide, by decide⟩

/-- C4 (amended): startup load never raises: a missing or unreadable file
yields an empty store, and a line that fails to parse stops the read at
that line, keeping the records parsed from earlier lines and discarding
every later line (well-formed or not). -/
theorem C4_load_stops_at_bad_line :
    load_users_from_file none = [] ∧
    (∀ (pre : List String) (bad : String) (rest : List String),
      (∀ l ∈ pre, (json_loads (pyStrip l)).isSome = true) →
      json_loads (pyStrip bad) = none →
      load_users_from_file (some (pre ++ bad :: rest)) = load_users_from_file (some pre)) := by
  refine ⟨rfl, ?_⟩
  intro pre bad rest hpre hbad
  exact loadLoop_append_stop pre [] bad rest hpre hbad

set_option maxRecDepth 10000 in
/-- C4 (witness): the amended theorem applied to the concrete three-line
file. -/
theorem C4_witness :
    load_users_from_file (some ([goodLineA] ++ badLine :: [goodLineB])) =
      load_users_from_file (some [goodLineA]) :=
  C4_load_stops_at_bad_line.2 [goodLineA] badLine [goodLineB] (by decide) (by decide)

/-- C9: writing any store to the mirror file and reloading it yields
exactly the non-tombstoned records, field for field, in store order; in
particular the listing of the reloaded store equals the listing of the
original.  The hypothesis states that each record has no duplicate keys,
which is automatic for Python dictionaries. -/
theorem C9_roundtrip (store : Store)
    (h : ∀ x ∈ store, ((x.getD []).map Prod.fst).Nodup) :
    load_users_from_file (some (save_users_to_file store)) = store.filterMap (fun x => x) ∧
    (load_users_from_file (some (save_users_to_file store))).map userResponse =
      (store.filterMap (fun x => x)).map userResponse := by
  have hall : ∀ r ∈ store.filterMap (fun x => x), (r.map Prod.fst).Nodup := by
    intro r hr
    rw [List.mem_filterMap] at hr
    obtain ⟨x, hx, hxe⟩ := hr
    have hx2 := h x hx
    cases x with
    | none => cases hxe
    | some r2 =>
      have : r2 = r := by simpa using hxe
      rw [← this]
      simpa using hx2
  have hmain : load_users_from_file (some (save_users_to_file store)) =
      store.filterMap (fun x => x) := by
    show loadLoop [] ((store.filterMap (fun x => x)).map json_dumps) = _
    rw [loadLoop_map_dumps _ [] hall]
    simp
  exact ⟨hmain, by rw [hmain]⟩

set_option maxRecDepth 10000 in
/-- C9 (witness): the round trip on a concrete store with two records and a
tombstoned slot between them. -/
theorem C9_witness :
    load_users_from_file
        (some (save_users_to_file [some alice.toRec, Option.none, some carol.toRec])) =
      ([some alice.toRec, Option.none, some carol.toRec] : Store).filterMap (fun x => x) ∧
    (load_users_from_file
        (some (save_users_to_file [some alice.toRec, Option.none, some carol.toRec]))).map
        userResponse =
      (([some alice.toRec, Option.none, some carol.toRec] : Store).filterMap
        (fun x => x)).map userResponse :=
  C9_roundtrip [some alice.toRec, Option.none, some carol.toRec] (by decide)

theorem dictGet_filterMap_fields (r : Rec) (ks : List String) (hk : "password" ∉ ks) :
    dictGet (ks.filterMap (fun k => (dictGet r k).map (fun v => (k, v)))) "password" = none := by
  induction ks with
  | nil => rfl
  | cons k ks2 ih =>
    simp only [List.mem_cons, not_or] at hk
    cases hv : dictGet r k with
    | none =>
      simp only [List.filterMap_cons, hv]
      exact ih hk.2
    | some v =>
      simp only [List.filterMap_cons, hv, Option.map_some']
      unfold dictGet
      rw [if_neg (fun he => hk.1 (by rw [he]))]
      exact ih hk.2

theorem userResponse_no_password (r : Rec) : dictGet (userResponse r) "password" = none :=
  dictGet_filterMap_fields r responseFields (by decide)

theorem create_user_ok (today : Date) (store : Store) (u : User) (store2 : Store) (r : Rec)
    (h : Myapp.create_user today store u = .ok (store2, r)) :
    store2 = store ++ [some u.toRec] ∧ r = u.toRec := by
  unfold Myapp.create_user at h
  split at h
  · cases h
  · split at h
    · cases h
    · cases h
      exact ⟨rfl, rfl⟩

/-- C5: every record-returning operation (create, get, list, patch, in both
variants) passes its result through the User response model whose password
field is excluded, so the serialized response never contains a password
key; yet the stored record keeps the password, the mirror file gains the
full serialized record as its last line, and parsing that line back
recovers the password. -/
theorem C5_password_suppressed :
    (∀ (today : Date) (store : Store) (u : User) (store2 : Store) (r : Rec),
      Myapp.create_user today store u = .ok (store2, r) →
      dictGet (userResponse r) "password" = none ∧
      dictGet r "password" = some (.pstr u.password) ∧
      save_users_to_file store2 = save_users_to_file store ++ [json_dumps r] ∧
      (json_loads (pyStrip (json_dumps r))).bind (fun rr => dictGet rr "password") =
        some (.pstr u.password)) ∧
    (∀ (store : Store) (user_id : Int) (r : Rec),
      Myapp.get_user store user_id = .ok r → dictGet (userResponse r) "password" = none) ∧
    (∀ (store : Store) (r : Rec),
      r ∈ Myapp.list_users store → dictGet (userResponse r) "password" = none) ∧
    (∀ (today : Date) (store : Store) (user_id : Int) (updates : Rec) (store2 : Store) (r : Rec),
      Myapp.update_user today store user_id updates = .ok (store2, r) →
      dictGet (userResponse r) "password" = none) ∧
    (∀ (st : Db.DbState) (user_id : Int) (row : Db.Row),
      Db.get_user st user_id = .ok row → dictGet (userResponse row.toRec) "password" = none) := by
  refine ⟨?_, ?_, ?_, ?_, ?_⟩
  · intro today store u store2 r h
    obtain ⟨hs, hr⟩ := create_user_ok today store u store2 r h
    subst hs
    subst hr
    refine ⟨userResponse_no_password _, rfl, ?_, ?_⟩
    · simp [save_users_to_file, List.filterMap_append]
    · have hkeys : u.toRec.map Prod.fst =
        ["name", "age", "dob", "address", "phone_number", "email", "username", "password"] := rfl
      rw [json_loads_strip_dumps u.toRec (by rw [hkeys]; decide)]
      rfl
  · intro store user_id r _
    exact userResponse_no_password r
  · intro store r _
    exact userResponse_no_password r
  · intro today store user_id updates store2 r _
    exact userResponse_no_password r
  · intro st user_id row _
    exact userResponse_no_password row.toRec

set_option maxRecDepth 10000 in
/-- C5 (witness): the create clause applied to a concrete valid creation on
the empty store. -/
theorem C5_witness :
    dictGet (userResponse alice.toRec) "password" = none ∧
    dictGet alice.toRec "password" = some (.pstr alice.password) ∧
    save_users_to_file [some alice.toRec] = save_users_to_file [] ++ [json_dumps alice.toRec] ∧
    (json_loads (pyStrip (json_dumps alice.toRec))).bind (fun rr => dictGet rr "password") =
      some (.pstr alice.password) :=
  C5_password_suppressed.1 today0 [] alice [some alice.toRec] alice.toRec (by decide)
